import Mathlib

/-
Verification development for the filerec recovery pipeline.

The development shallowly embeds the C++ sources of the pipeline.  A raw
byte buffer (a C pointer plus a length) is embedded as a total function
from indices to byte values together with an explicit size argument, so a
shifted pointer `data + k` becomes the function composed with an offset.
Machine integers are modelled as Nat (all the relevant arithmetic stays in
the non-negative range and is bounds-guarded exactly where the source
guards it); C++ doubles are modelled as exact rationals.  Comparisons of
the real-valued Shannon entropy with rational thresholds are embedded as
the equivalent integer inequalities on the byte histogram (see the comment
on entropyWeight), keeping every definition computable.
-/

namespace FileRec

/-- Embedding of the cross-component value type RecoveredFile
(include/utils/types.h).  The sha256 field is never touched by the core
and is omitted. -/
structure RecoveredFile where
  filename : String
  file_type : String
  start_offset : Nat
  file_size : Nat
  confidence_score : ℚ
  is_fragmented : Bool
  fragments : List (Nat × Nat)
deriving DecidableEq, Repr

/-- Default constructor of RecoveredFile (types.h line 33). -/
instance : Inhabited RecoveredFile :=
  ⟨{ filename := "", file_type := "", start_offset := 0, file_size := 0,
     confidence_score := 0, is_fragmented := false, fragments := [] }⟩

/-- Embedding of RecoveryStatus (types.h). -/
inductive RecoveryStatus where
  | SUCCESS
  | PARTIAL_SUCCESS
  | FAILED
  | ACCESS_DENIED
  | DEVICE_NOT_FOUND
  | INSUFFICIENT_SPACE
deriving DecidableEq, Repr

/-- Embedding of ScanConfig (types.h); only the fields consulted by the
embedded engine paths are kept. -/
structure ScanConfig where
  device_path : String
  output_directory : String
  use_metadata_recovery : Bool := true
  use_signature_recovery : Bool := true
  verbose_logging : Bool := false

/-- Check that the pat matches the buffer at offset i
(std::equal(pattern.begin(), pattern.end(), data + i)). -/
def matchAt (data : Nat → Nat) (pat : List Nat) (i : Nat) : Bool :=
  (List.range pat.length).all fun j => data (i + j) == pat.getD j 0

/-- Embedding of BaseCarver::findPattern (base_carver.cpp lines 11-30):
every offset i with 0 <= i <= size - pattern.size() at which the pattern
occurs, in increasing order; empty pattern or pattern longer than the
buffer gives the empty list. -/
def findPattern (data : Nat → Nat) (size : Nat) (pat : List Nat) : List Nat :=
  if pat = [] ∨ size < pat.length then []
  else (List.range (size - pat.length + 1)).filter (matchAt data pat)

/-- Number of occurrences of byte value v in the window of n bytes starting
at start (the byte histogram of BaseCarver::calculateEntropy). -/
def byteCount (data : Nat → Nat) (start n v : Nat) : Nat :=
  ((List.range n).filter (fun i => data (start + i) == v)).length

/-- Product of c^c over the 256 histogram bins c of the window.  For a
window of n > 0 bytes the Shannon entropy of calculateEntropy
(base_carver.cpp lines 32-53) equals log2 n - (log2 entropyWeight) / n,
so every comparison of the entropy against a rational threshold p/q is
equivalent to an integer inequality between entropyWeight^q * 2^(p*n) and
n^(q*n); the entropy*Q functions below embed the source's floating-point
comparisons through that equivalence.  Empty bins contribute 0^0 = 1,
matching the source's skip of zero frequencies. -/
def entropyWeight (data : Nat → Nat) (start n : Nat) : Nat :=
  (List.range 256).foldl
    (fun acc v => acc * (byteCount data start n v) ^ (byteCount data start n v)) 1

/-- Decision of: the Shannon entropy of the window is >= p/q.
For n = 0 the source computes entropy 0.0. -/
def entropyGeQ (data : Nat → Nat) (start n p q : Nat) : Bool :=
  if n = 0 then p == 0
  else entropyWeight data start n ^ q * 2 ^ (p * n) ≤ n ^ (q * n)

/-- Decision of: the Shannon entropy of the window is <= p/q. -/
def entropyLeQ (data : Nat → Nat) (start n p q : Nat) : Bool :=
  if n = 0 then true
  else n ^ (q * n) ≤ entropyWeight data start n ^ q * 2 ^ (p * n)

/-- Decision of: the Shannon entropy of the window is > p/q (strict). -/
def entropyGtQ (data : Nat → Nat) (start n p q : Nat) : Bool :=
  if n = 0 then false
  else entropyWeight data start n ^ q * 2 ^ (p * n) < n ^ (q * n)

/-- Decision of: the Shannon entropy of the window is < p/q (strict). -/
def entropyLtQ (data : Nat → Nat) (start n p q : Nat) : Bool :=
  if n = 0 then true
  else n ^ (q * n) < entropyWeight data start n ^ q * 2 ^ (p * n)

/-- Embedding of BaseCarver::calculateConfidenceScore (base_carver.cpp
lines 105-143): header 0.4, footer 0.2, entropy 0.2 when in [6,8] and 0.1
when in [4,6), structure 0.2, capped at 1.0.  The two entropy range tests
of the source arrive as the booleans entHigh and entMid. -/
def calculateConfidenceScore (header footer entHigh entMid structOk : Bool) : ℚ :=
  min ((if header then (4 : ℚ)/10 else 0) +
       (if footer then (2 : ℚ)/10 else 0) +
       (if entHigh then (2 : ℚ)/10 else if entMid then (1 : ℚ)/10 else 0) +
       (if structOk then (2 : ℚ)/10 else 0)) 1

/-- Lowercase hexadecimal digit, as produced by std::hex. -/
def hexDigit (n : Nat) : Char :=
  if n < 10 then Char.ofNat (48 + n) else Char.ofNat (87 + n)

/-- Sixteen hex digits of the offset, zero filled
(std::setfill with std::setw(16)); offsets are below 2^64 so sixteen
digits never truncate. -/
def hex16 (n : Nat) : String :=
  String.mk ((List.range 16).map fun k => hexDigit (n / 16 ^ (15 - k) % 16))

/-- Embedding of BaseCarver::generateFilename (base_carver.cpp
lines 79-84). -/
def generateFilename (offset : Nat) (file_type : String) : String :=
  "recovered_" ++ hex16 offset ++ "." ++ file_type

namespace Jpeg

/-- Embedding of JpegCarver::getFileSignatures (jpeg_carver.cpp
lines 11-17): JFIF, EXIF, raw JPEG. -/
def getFileSignatures : List (List Nat) :=
  [[0xFF, 0xD8, 0xFF, 0xE0], [0xFF, 0xD8, 0xFF, 0xE1], [0xFF, 0xD8, 0xFF, 0xDB]]

/-- Embedding of JpegCarver::getMaxFileSize: 100 MiB. -/
def getMaxFileSize : Nat := 100 * 1024 * 1024

/-- Loop body of JpegCarver::estimateSizeFromSegments (jpeg_carver.cpp
lines 217-257).  The loop advances offset by at least 2 per iteration, so
fuel = max_size always suffices; the fuel-exhausted branch mirrors the
loop-exit result. -/
def estimateGo (data : Nat → Nat) (max_size : Nat) :
    Nat → Nat → Nat → Nat
  | 0, _, last => last
  | fuel + 1, offset, last =>
    if offset + 1 < max_size then
      if data offset ≠ 0xFF then last
      else
        let marker := data (offset + 1)
        if marker = 0xD9 then offset + 2
        else if 0xD0 ≤ marker ∧ marker ≤ 0xD7 then
          estimateGo data max_size fuel (offset + 2) (offset + 2)
        else if max_size ≤ offset + 3 then last
        else
          let segLen := data (offset + 2) * 256 + data (offset + 3)
          if segLen < 2 ∨ max_size < offset + 2 + segLen then last
          else if getMaxFileSize < offset + 2 + segLen then offset + 2 + segLen
          else estimateGo data max_size fuel (offset + 2 + segLen) (offset + 2 + segLen)
    else last

/-- Embedding of JpegCarver::estimateSizeFromSegments: walk the segment
chain from offset 2 and return the offset just past the last coherent
segment. -/
def estimateSizeFromSegments (data : Nat → Nat) (max_size : Nat) : Nat :=
  estimateGo data max_size max_size 2 2

/-- Embedding of JpegCarver::findJpegEnd (jpeg_carver.cpp lines 110-129):
scan forward from start_offset + 10 for the first FF D9 (the loop also
checks the first index farther than getMaxFileSize from the start before
breaking); when none is found fall back to the segment-chain estimate on
the shifted buffer. -/
def findJpegEnd (data : Nat → Nat) (size start : Nat) : Nat :=
  if size ≤ start + 10 then 0
  else
    let stop := min (size - 1) (start + getMaxFileSize + 2)
    match (List.range' (start + 10) (stop - (start + 10))).find?
        (fun i => data i == 0xFF && data (i + 1) == 0xD9) with
    | some i => i - start + 2
    | none => estimateSizeFromSegments (fun j => data (start + j)) (size - start)

/-- Loop body of JpegCarver::hasValidSegments (jpeg_carver.cpp
lines 169-215); every exit except the FF D9 marker returns
segment_count > 0, and fuel = size suffices because offset grows by at
least 2 per iteration. -/
def segmentsGo (data : Nat → Nat) (size : Nat) :
    Nat → Nat → Nat → Bool
  | 0, _, count => decide (0 < count)
  | fuel + 1, offset, count =>
    if offset + 1 < size ∧ count < 100 then
      if data offset ≠ 0xFF then decide (0 < count)
      else
        let marker := data (offset + 1)
        if marker = 0x00 ∨ marker = 0xFF then segmentsGo data size fuel (offset + 2) count
        else if marker = 0xD9 then true
        else if 0xD0 ≤ marker ∧ marker ≤ 0xD7 then
          segmentsGo data size fuel (offset + 2) (count + 1)
        else if size ≤ offset + 3 then decide (0 < count)
        else
          let segLen := data (offset + 2) * 256 + data (offset + 3)
          if segLen < 2 then decide (0 < count)
          else segmentsGo data size fuel (offset + 2 + segLen) (count + 1)
    else decide (0 < count)

/-- Embedding of JpegCarver::hasValidSegments: the segment walk starting
after the FF D8 marker succeeds with at least one segment. -/
def hasValidSegments (data : Nat → Nat) (size : Nat) : Bool :=
  if size < 4 then false else segmentsGo data size size 2 0

/-- Embedding of JpegCarver::validateJpegStructure (jpeg_carver.cpp
lines 131-138). -/
def validateJpegStructure (data : Nat → Nat) (size : Nat) : Bool :=
  if size < 10 then false else hasValidSegments data size

/-- Embedding of JpegCarver::validateFile (jpeg_carver.cpp lines 71-104);
data is the already-shifted buffer (the caller passes
data + match_offset). -/
def validateFile (data : Nat → Nat) (file_size : Nat) : ℚ :=
  if file_size < 10 then 0
  else
    let header := getFileSignatures.any fun sig =>
      sig.length ≤ file_size && matchAt data sig 0
    let footer := 2 ≤ file_size && data (file_size - 2) == 0xFF &&
      data (file_size - 1) == 0xD9
    let structOk := validateJpegStructure data file_size
    let n := min file_size 4096
    calculateConfidenceScore header footer
      (entropyGeQ data 0 n 6 1 && entropyLeQ data 0 n 8 1)
      (entropyGeQ data 0 n 4 1 && !entropyGeQ data 0 n 6 1)
      structOk

/-- Embedding of JpegCarver::carveFiles (jpeg_carver.cpp lines 25-69). -/
def carveFiles (data : Nat → Nat) (size base : Nat) : List RecoveredFile :=
  if size < 10 then []
  else
    getFileSignatures.flatMap fun sig =>
      (findPattern data size sig).filterMap fun m =>
        let jpeg_size := findJpegEnd data size m
        if jpeg_size = 0 ∨ jpeg_size < 100 then none
        else
          let conf := validateFile (fun j => data (m + j)) jpeg_size
          if (3 : ℚ)/10 < conf then
            some { filename := generateFilename (base + m) "jpg",
                   file_type := "JPEG",
                   start_offset := base + m,
                   file_size := jpeg_size,
                   confidence_score := conf,
                   is_fragmented := false,
                   fragments := [] }
          else none

end Jpeg

namespace Pdf

/-- Embedding of PdfCarver::getFileSignatures: the five bytes of
"%PDF-". -/
def getFileSignatures : List (List Nat) :=
  [[0x25, 0x50, 0x44, 0x46, 0x2D]]

/-- Embedding of PdfCarver::getFileFooters: "%%EOF", "\n%%EOF",
"\r\n%%EOF". -/
def getFileFooters : List (List Nat) :=
  [[0x25, 0x25, 0x45, 0x4F, 0x46],
   [0x0A, 0x25, 0x25, 0x45, 0x4F, 0x46],
   [0x0D, 0x0A, 0x25, 0x25, 0x45, 0x4F, 0x46]]

/-- Embedding of PdfCarver::getMaxFileSize: 1 GiB. -/
def getMaxFileSize : Nat := 1024 * 1024 * 1024

/-- Value of std::string::npos for a 64-bit size_t, used by
estimatePdfSize through std::string::rfind. -/
def NPOS : Nat := 2 ^ 64 - 1

/-- Result of std::string::rfind over the n-byte window: the largest
offset of an occurrence, or npos when absent. -/
def rfindPat (data : Nat → Nat) (n : Nat) (pat : List Nat) : Nat :=
  match (findPattern data n pat).getLast? with
  | some i => i
  | none => NPOS

/-- Embedding of PdfCarver::estimatePdfSize (pdf_carver.cpp
lines 284-300): look in the first min(max_size, 32768) bytes for the last
of " obj", "endobj", "endstream"; add 100 bytes of padding past it (their
size_t max is npos as soon as one of the three is absent, in which case
the 10 MiB fallback applies). -/
def estimatePdfSize (data : Nat → Nat) (max_size : Nat) : Nat :=
  let n := min max_size 32768
  let lastObj := rfindPat data n [0x20, 0x6F, 0x62, 0x6A]
  let lastEndobj := rfindPat data n [0x65, 0x6E, 0x64, 0x6F, 0x62, 0x6A]
  let lastStream := rfindPat data n [0x65, 0x6E, 0x64, 0x73, 0x74, 0x72, 0x65, 0x61, 0x6D]
  let estimated_end := max (max lastObj lastEndobj) lastStream
  if estimated_end ≠ NPOS then estimated_end + 100
  else min max_size (10 * 1024 * 1024)

/-- Embedding of PdfCarver::findPdfEnd (pdf_carver.cpp lines 96-146):
bound the search by the next "%PDF-" signature, scan backward from that
bound for the last footer, and otherwise fall back to the next-signature
boundary or to the structure-based estimate. -/
def findPdfEnd (data : Nat → Nat) (size start : Nat) : Nat :=
  if size ≤ start + 20 then 0
  else
    let next_pdf :=
      match (List.range' (start + 5) (size - 5 - (start + 5))).find?
          (fun i => matchAt data [0x25, 0x50, 0x44, 0x46, 0x2D] i) with
      | some i => i
      | none => size
    let search_end := min (min next_pdf (start + getMaxFileSize)) size
    match ((List.range' (start + 21) (search_end - (start + 21))).reverse).find?
        (fun i => getFileFooters.any fun f =>
          f.length ≤ i && matchAt data f (i - f.length + 1)) with
    | some i => i - start + 1
    | none =>
      if next_pdf < size then next_pdf - start
      else estimatePdfSize (fun j => data (start + j)) (size - start)

/-- Embedding of PdfCarver::validatePdfStructure (pdf_carver.cpp
lines 148-166): the first min(20, size) bytes start with "%PDF-1." and
the first min(4096, size) bytes contain " obj". -/
def validatePdfStructure (data : Nat → Nat) (size : Nat) : Bool :=
  if size < 20 then false
  else
    (7 ≤ min size 20 && matchAt data [0x25, 0x50, 0x44, 0x46, 0x2D, 0x31, 0x2E] 0) &&
    !(findPattern data (min size 4096) [0x20, 0x6F, 0x62, 0x6A]).isEmpty

/-- Embedding of PdfCarver::hasValidTrailer (pdf_carver.cpp
lines 192-231).  For sizes below 100 the source searches the hex dump of
the last (up to) 10 bytes for the hex rendering of "%%EOF", which matches
exactly when those bytes contain the five footer bytes consecutively
(the dump triplet alignment forces byte alignment); otherwise it searches
the last min(size, 1024) bytes for any footer. -/
def hasValidTrailer (data : Nat → Nat) (size : Nat) : Bool :=
  if size < 10 then false
  else if size < 100 then
    !(findPattern (fun j => data (size - 10 + j)) 10 [0x25, 0x25, 0x45, 0x4F, 0x46]).isEmpty
  else
    let check_size := min size 1024
    getFileFooters.any fun f =>
      !(findPattern (fun j => data (size - check_size + j)) check_size f).isEmpty

/-- Embedding of PdfCarver::validateFile (pdf_carver.cpp lines 233-282);
data is the already-shifted buffer.  Without a valid trailer the source
fixes the confidence at 0.5, otherwise it combines the usual four
signals. -/
def validateFile (data : Nat → Nat) (file_size : Nat) : ℚ :=
  if file_size < 20 then 0
  else
    let header := getFileSignatures.any fun sig =>
      sig.length ≤ file_size && matchAt data sig 0
    let footer := hasValidTrailer data file_size
    let structOk := validatePdfStructure data file_size
    let n := min file_size 4096
    if !footer then (5 : ℚ)/10
    else
      calculateConfidenceScore header footer
        (entropyGeQ data 0 n 6 1 && entropyLeQ data 0 n 8 1)
        (entropyGeQ data 0 n 4 1 && !entropyGeQ data 0 n 6 1)
        structOk

/-- Embedding of PdfCarver::carveFiles (pdf_carver.cpp lines 27-90);
buffers below 1000 bytes are treated as test data, which lowers the
minimum-size and confidence gates. -/
def carveFiles (data : Nat → Nat) (size base : Nat) : List RecoveredFile :=
  if size < 20 then []
  else
    getFileSignatures.flatMap fun sig =>
      (findPattern data size sig).filterMap fun m =>
        let pdf_size := findPdfEnd data size m
        let is_test_data := size < 1000
        if pdf_size = 0 ∨ (pdf_size < 100 ∧ ¬is_test_data) then none
        else
          let conf := validateFile (fun j => data (m + j)) pdf_size
          let threshold : ℚ := if is_test_data then 1/10 else 3/10
          if threshold < conf then
            some { filename := generateFilename (base + m) "pdf",
                   file_type := "PDF",
                   start_offset := base + m,
                   file_size := pdf_size,
                   confidence_score := conf,
                   is_fragmented := false,
                   fragments := [] }
          else none

end Pdf

namespace Zip

/-- Little-endian 16-bit read, the value a reinterpret_cast of two buffer
bytes to uint16_t produces on the little-endian hosts the source assumes. -/
def readLE16 (data : Nat → Nat) (i : Nat) : Nat :=
  data i + 256 * data (i + 1)

/-- Little-endian 32-bit read of four buffer bytes. -/
def readLE32 (data : Nat → Nat) (i : Nat) : Nat :=
  data i + 256 * data (i + 1) + 65536 * data (i + 2) + 16777216 * data (i + 3)

/-- Embedding of ZipCarver::getFileSignatures: local header, empty-archive
end record, spanned archive. -/
def getFileSignatures : List (List Nat) :=
  [[0x50, 0x4B, 0x03, 0x04], [0x50, 0x4B, 0x05, 0x06], [0x50, 0x4B, 0x07, 0x08]]

/-- LOCAL_FILE_HEADER_SIG (zip_carver.h line 66). -/
def LOCAL_FILE_HEADER_SIG : Nat := 0x04034b50

/-- END_OF_CENTRAL_DIR_SIG (zip_carver.h line 68). -/
def END_OF_CENTRAL_DIR_SIG : Nat := 0x06054b50

/-- Size in bytes of the packed ZipLocalFileHeader struct. -/
def localHeaderSize : Nat := 30

/-- Size in bytes of the packed ZipEndOfCentralDir struct. -/
def eocdSize : Nat := 22

/-- Embedding of ZipCarver::validate_local_file_header (zip_carver.cpp
lines 301-327) reading the packed header fields at offset off:
signature at +0, version_needed at +4, compression_method at +8,
filename_length at +26, extra_field_length at +28. -/
def validate_local_file_header (data : Nat → Nat) (off : Nat) : Bool :=
  readLE32 data off == LOCAL_FILE_HEADER_SIG &&
  readLE16 data (off + 4) ≤ 63 &&
  readLE16 data (off + 8) ≤ 99 &&
  readLE16 data (off + 26) ≤ 512 &&
  readLE16 data (off + 28) ≤ 1024

/-- Embedding of ZipCarver::validate_end_of_central_dir (zip_carver.cpp
lines 346-362): signature at +0 and comment_length at +20 at most 1024. -/
def validate_end_of_central_dir (data : Nat → Nat) (off : Nat) : Bool :=
  readLE32 data off == END_OF_CENTRAL_DIR_SIG &&
  readLE16 data (off + 20) ≤ 1024

/-- Embedding of ZipCarver::find_end_of_central_directory (zip_carver.cpp
lines 281-299): scan backward from size - 22 down to 1 (offset 0 is never
reported) for a valid end-of-central-directory record; 0 means absent. -/
def find_end_of_central_directory (data : Nat → Nat) (size : Nat) : Nat :=
  if size < eocdSize then 0
  else
    match ((List.range' 1 (size - eocdSize)).reverse).find?
        (fun i => validate_end_of_central_dir data i) with
    | some i => i
    | none => 0

/-- Loop body of the header-chain estimate inside
ZipCarver::calculate_zip_size (zip_carver.cpp lines 380-409).  Every
iteration advances pos by an entry size of at least 30 bytes, so
fuel = bound suffices. -/
def headerChainGo (data : Nat → Nat) (bound : Nat) :
    Nat → Nat → Nat → Nat
  | 0, _, last => last
  | fuel + 1, pos, last =>
    if pos + 4 < bound then
      if readLE32 data pos == LOCAL_FILE_HEADER_SIG then
        if bound < pos + localHeaderSize then last
        else if !validate_local_file_header data pos then last
        else
          let entry_size := localHeaderSize + readLE16 data (pos + 26) +
            readLE16 data (pos + 28) + readLE32 data (pos + 18) +
            (if (readLE16 data (pos + 6)).testBit 3 then 12 else 0)
          headerChainGo data bound fuel (pos + entry_size) (pos + entry_size)
      else last
    else last

/-- Embedding of ZipCarver::calculate_zip_size (zip_carver.cpp
lines 364-416): cap the window at the next local-header signature, prefer
the end-of-central-directory record, and otherwise walk the local-header
chain. -/
def calculate_zip_size (data : Nat → Nat) (max_size : Nat) : Nat :=
  let next_zip_offset :=
    match (List.range' localHeaderSize (max_size - 4 - localHeaderSize)).find?
        (fun i => readLE32 data i == LOCAL_FILE_HEADER_SIG) with
    | some i => i
    | none => max_size
  let eocd_pos := find_end_of_central_directory data next_zip_offset
  if eocd_pos = 0 then headerChainGo data next_zip_offset max_size 0 0
  else min (eocd_pos + eocdSize + readLE16 data (eocd_pos + 20)) next_zip_offset

/-- Accumulated confidence of ZipCarver::calculateConfidence after the
local-header checks (zip_carver.cpp lines 141-154): base 0.5, +0.2 for
the signature, +0.1 when the header validates. -/
def confidenceAfterHeader (data : Nat → Nat) (size : Nat) : ℚ :=
  if localHeaderSize ≤ size ∧ readLE32 data 0 = LOCAL_FILE_HEADER_SIG then
    (5 : ℚ)/10 + 2/10 + (if validate_local_file_header data 0 then (1 : ℚ)/10 else 0)
  else (5 : ℚ)/10

/-- Accumulated confidence after the end-of-central-directory check
(zip_carver.cpp lines 156-162): +0.3 with a record, else capped at
0.6. -/
def confidenceAfterEocd (data : Nat → Nat) (size : Nat) : ℚ :=
  if 0 < find_end_of_central_directory data size then
    confidenceAfterHeader data size + 3/10
  else min (confidenceAfterHeader data size) ((6 : ℚ)/10)

/-- Embedding of ZipCarver::calculateConfidence (zip_carver.cpp
lines 140-171): the accumulation above, +0.1 for entropy in (3.0, 7.5)
over the first min(size, 8192) bytes, capped at 1.0. -/
def calculateConfidence (data : Nat → Nat) (size : Nat) : ℚ :=
  min
    (if entropyGtQ data 0 (min size 8192) 3 1 &&
        entropyLtQ data 0 (min size 8192) 15 2 then
      confidenceAfterEocd data size + 1/10
    else confidenceAfterEocd data size) 1

/-- Candidate record collected by ZipCarver::carveFiles before the
sort/deduplicate/overlap passes. -/
structure ZipCandidate where
  offset : Nat
  zip_size : Nat
  confidence : ℚ
deriving DecidableEq, Repr

/-- Candidate collection of ZipCarver::carveFiles (zip_carver.cpp
lines 46-87): for every signature match with room for a local header,
validate the header (skipped for sub-1000-byte test buffers), size the
archive (with the test-data fallback to the rest of the buffer), clamp it
to the buffer, and score it. -/
def collectCandidates (data : Nat → Nat) (size : Nat) : List ZipCandidate :=
  let is_test_data := size < 1000
  getFileSignatures.flatMap fun sig =>
    (findPattern data size sig).filterMap fun offset =>
      if size < offset + localHeaderSize then none
      else
        let header_valid := if is_test_data then true
          else validate_local_file_header data offset
        if header_valid then
          let zip_size0 := calculate_zip_size (fun j => data (offset + j)) (size - offset)
          if zip_size0 = 0 ∧ ¬is_test_data then none
          else
            let zip_size1 := if zip_size0 = 0 then size - offset else zip_size0
            let zip_size := if size < offset + zip_size1 then size - offset else zip_size1
            let confidence : ℚ :=
              if is_test_data then
                if 0 < find_end_of_central_directory (fun j => data (offset + j)) zip_size
                then 9/10 else 6/10
              else calculateConfidence (fun j => data (offset + j)) zip_size
            some { offset := offset, zip_size := zip_size, confidence := confidence }
        else none

/-- Insertion of a candidate into a list sorted by the std::sort
comparator of zip_carver.cpp line 89 (ascending offset). -/
def insertByOffset (c : ZipCandidate) : List ZipCandidate → List ZipCandidate
  | [] => [c]
  | d :: t => if d.offset < c.offset then d :: insertByOffset c t else c :: d :: t

/-- Sorting pass of ZipCarver::carveFiles: the output of std::sort is some
sequence sorted by ascending offset; insertion sort realizes it. -/
def sortCandidates : List ZipCandidate → List ZipCandidate :=
  List.foldr insertByOffset []

/-- Collapse pass mirroring std::unique on equal offsets (zip_carver.cpp
lines 93-95): keep the first of each run of candidates sharing an
offset. -/
def uniqueByOffsetFrom (c : ZipCandidate) : List ZipCandidate → List ZipCandidate
  | [] => [c]
  | d :: t => if c.offset == d.offset then uniqueByOffsetFrom c t
              else c :: uniqueByOffsetFrom d t

/-- Entry point of the offset-deduplication pass. -/
def uniqueByOffset : List ZipCandidate → List ZipCandidate
  | [] => []
  | c :: t => uniqueByOffsetFrom c t

/-- Overlap filter of ZipCarver::carveFiles (zip_carver.cpp lines 96-117):
drop any candidate that starts before the end of the last kept one. -/
def overlapFilter : Nat → List ZipCandidate → List ZipCandidate
  | _, [] => []
  | last_end, c :: t =>
    if c.offset < last_end then overlapFilter last_end t
    else c :: overlapFilter (c.offset + c.zip_size) t

/-- RecoveredFile built from a surviving candidate (zip_carver.cpp
lines 106-115). -/
def toRecovered (base : Nat) (c : ZipCandidate) : RecoveredFile :=
  { filename := generateFilename (base + c.offset) "zip",
    file_type := "zip",
    start_offset := base + c.offset,
    file_size := c.zip_size,
    confidence_score := c.confidence,
    is_fragmented := false,
    fragments := [(base + c.offset, c.zip_size)] }

/-- Embedding of ZipCarver::carveFiles (zip_carver.cpp lines 31-119). -/
def carveFiles (data : Nat → Nat) (size base : Nat) : List RecoveredFile :=
  if size < 4 then []
  else
    (overlapFilter 0 (uniqueByOffset (sortCandidates (collectCandidates data size)))).map
      (toRecovered base)

end Zip

namespace Png

/-- Bytes of the PNG signature (png_carver.cpp line 11). -/
def PNG_SIGNATURE : List Nat := [0x89, 0x50, 0x4E, 0x47, 0x0D, 0x0A, 0x1A, 0x0A]

/-- Bytes of the IEND chunk type (png_carver.cpp line 13). -/
def PNG_IEND : List Nat := [0x49, 0x45, 0x4E, 0x44]

/-- Big-endian 32-bit read of four buffer bytes, as the chunk-length
extraction of png_carver.cpp lines 237-238 composes them. -/
def readBE32 (data : Nat → Nat) (i : Nat) : Nat :=
  data i * 2 ^ 24 + data (i + 1) * 2 ^ 16 + data (i + 2) * 2 ^ 8 + data (i + 3)

/-- Chunk-walk loop of PngCarver::findPngEnd (png_carver.cpp
lines 213-254): while offset + 8 < size, an IEND chunk type at
offset + 4 ends the walk at offset + 12; otherwise a chunk length above
10 MiB advances by one byte and a plausible one advances past the chunk.
The inner offset + 4 <= size test of the source always holds under the
loop condition, so its break is dead.  Each iteration advances the offset
by at least one, so a fuel of size covers every run; the fuel-out value
is the loop-exit fallback. -/
def findPngEndGo (data : Nat → Nat) (size : Nat) : Nat → Nat → Option Nat
  | 0, _ => none
  | fuel + 1, offset =>
    if offset + 8 < size then
      if data (offset + 4) = 0x49 ∧ data (offset + 5) = 0x45 ∧
          data (offset + 6) = 0x4E ∧ data (offset + 7) = 0x44 then
        some (offset + 12)
      else
        let chunk_length := readBE32 data offset
        if 10 * 1024 * 1024 < chunk_length then
          findPngEndGo data size fuel (offset + 1)
        else
          findPngEndGo data size fuel (offset + 8 + chunk_length + 4)
    else none

/-- Embedding of PngCarver::findPngEnd (png_carver.cpp lines 200-260):
zero when fewer than 21 bytes remain, the end of the IEND chunk when the
walk finds one (the 12 bytes cover length, type and CRC, with only
offset + 8 < size checked), and the whole remaining buffer otherwise. -/
def findPngEnd (data : Nat → Nat) (size start : Nat) : Nat :=
  if size ≤ start + 20 then 0
  else
    match findPngEndGo data size size (start + 8) with
    | some e => e - start
    | none => size - start

/-- Embedding of PngCarver::hasValidIendChunk (png_carver.cpp
lines 111-125): some offset from 8 with offset + 8 < size carries the
IEND type at offset + 4. -/
def hasValidIendChunk (data : Nat → Nat) (size : Nat) : Bool :=
  if size < 20 then false
  else
    (List.range' 8 (size - 16)).any fun off =>
      data (off + 4) = 0x49 && data (off + 5) = 0x45 &&
      data (off + 6) = 0x4E && data (off + 7) = 0x44

/-- Chunk-validation loop of PngCarver::hasValidChunks (png_carver.cpp
lines 336-367), bounded by 1000 chunks: a chunk reaching past the buffer
stops the walk, an IHDR chunk must be 13 bytes and an IEND chunk 0 bytes
long (else the whole check fails), IEND ends the walk before the chunk
counter moves.  The source's loop guard caps chunk_count below 1000, so a
fuel of 1000 - chunk_count never runs out; the fuel-out value repeats the
loop-exit expression. -/
def hasValidChunksGo (data : Nat → Nat) (size : Nat) :
    Nat → Nat → Nat → Bool → Bool → Bool
  | 0, _, chunk_count, found_ihdr, found_iend =>
    found_ihdr && found_iend && decide (0 < chunk_count)
  | fuel + 1, offset, chunk_count, found_ihdr, found_iend =>
    if offset + 8 < size ∧ chunk_count < 1000 then
      let chunk_length := readBE32 data offset
      if size < offset + 8 + chunk_length then
        found_ihdr && found_iend && decide (0 < chunk_count)
      else if data (offset + 4) = 0x49 ∧ data (offset + 5) = 0x48 ∧
          data (offset + 6) = 0x44 ∧ data (offset + 7) = 0x52 then
        if chunk_length ≠ 13 then false
        else hasValidChunksGo data size fuel (offset + 8 + chunk_length + 4)
          (chunk_count + 1) true found_iend
      else if data (offset + 4) = 0x49 ∧ data (offset + 5) = 0x45 ∧
          data (offset + 6) = 0x4E ∧ data (offset + 7) = 0x44 then
        if chunk_length ≠ 0 then false
        else found_ihdr && true && decide (0 < chunk_count)
      else hasValidChunksGo data size fuel (offset + 8 + chunk_length + 4)
        (chunk_count + 1) found_ihdr found_iend
    else found_ihdr && found_iend && decide (0 < chunk_count)

/-- Embedding of PngCarver::hasValidChunks (png_carver.cpp
lines 324-374): buffers below 1000 bytes pass unconditionally. -/
def hasValidChunks (data : Nat → Nat) (size : Nat) : Bool :=
  if size < 1000 then true
  else hasValidChunksGo data size 1000 8 0 false false

/-- Embedding of PngCarver::validatePngStructure (png_carver.cpp
lines 262-274): at least 20 bytes, the PNG signature up front, and valid
chunks. -/
def validatePngStructure (data : Nat → Nat) (size : Nat) : Bool :=
  if size < 20 then false
  else matchAt data PNG_SIGNATURE 0 && hasValidChunks data size

/-- Search of PngCarver::validateFile for an IEND type in the last
min(size, 20) bytes (png_carver.cpp lines 141-152 and 169-181): offsets
0 to search_size - 5 of the tail window. -/
def iendInTail (data : Nat → Nat) (file_size : Nat) : Bool :=
  let search_size := min file_size 20
  (List.range (search_size - 4)).any fun i =>
    matchAt (fun j => data (file_size - search_size + j)) PNG_IEND i

/-- Embedding of PngCarver::validateFile (png_carver.cpp lines 127-194);
data is the already-shifted buffer.  Below 20 bytes the score is 0; below
1000 bytes the test path scores 0.9 with an IEND near the end and 0.5
without; otherwise the four usual signals combine. -/
def validateFile (data : Nat → Nat) (file_size : Nat) : ℚ :=
  if file_size < 20 then 0
  else if file_size < 1000 then
    if iendInTail data file_size then (9 : ℚ)/10 else (5 : ℚ)/10
  else
    let header := matchAt data PNG_SIGNATURE 0
    let footer := iendInTail data file_size
    let structOk := validatePngStructure data file_size
    let n := min file_size 4096
    calculateConfidenceScore header footer
      (entropyGeQ data 0 n 6 1 && entropyLeQ data 0 n 8 1)
      (entropyGeQ data 0 n 4 1 && !entropyGeQ data 0 n 6 1)
      structOk

/-- Embedding of PngCarver::carveFiles (png_carver.cpp lines 27-108):
signature matches, per-match size from findPngEnd, small-PNG skip gated
off for test data and buffers of 5000 bytes or more, test-data records
pushed with 0.9/0.5 confidence by the IEND check, and other records
validated against a threshold of 0.1 for buffers above 5000 bytes and 0.3
otherwise. -/
def carveFiles (data : Nat → Nat) (size base : Nat) : List RecoveredFile :=
  if size < 20 then []
  else
    (findPattern data size PNG_SIGNATURE).filterMap fun m =>
      let png_size := findPngEnd data size m
      let is_test_data := size < 1000 ∨ (size < 1000 ∧ m = 0)
      if png_size = 0 ∨ (png_size < 100 ∧ ¬is_test_data ∧ size < 5000) then none
      else if is_test_data then
        some { filename := generateFilename (base + m) "png",
               file_type := "PNG",
               start_offset := base + m,
               file_size := png_size,
               confidence_score :=
                 if ¬hasValidIendChunk (fun j => data (m + j)) png_size then (5 : ℚ)/10
                 else (9 : ℚ)/10,
               is_fragmented := false,
               fragments := [] }
      else
        let conf := validateFile (fun j => data (m + j)) png_size
        let threshold : ℚ := if 5000 < size then 1/10 else 3/10
        if threshold < conf then
          some { filename := generateFilename (base + m) "png",
                 file_type := "PNG",
                 start_offset := base + m,
                 file_size := png_size,
                 confidence_score := conf,
                 is_fragmented := false,
                 fragments := [] }
        else none

end Png

namespace Fat32

/-- Embedding of the packed Fat32BootSector struct (fat32_parser.h
lines 21-51) at the field level, keeping the fields the embedded
functions consult; field values are the little-endian integers a
reinterpret_cast would read. -/
structure Fat32BootSector where
  bytes_per_sector : Nat
  sectors_per_cluster : Nat
  reserved_sector_count : Nat
  table_count : Nat
  table_size_16 : Nat
  table_size_32 : Nat
  root_cluster : Nat
  fat_type_label : List Nat
  bootable_partition_signature : Nat
deriving DecidableEq, Repr

/-- Embedding of the packed Fat32DirEntry struct (fat32_parser.h
lines 53-66); filename holds the eleven 8+3 name bytes. -/
structure Fat32DirEntry where
  filename : List Nat
  attributes : Nat
  first_cluster_high : Nat
  first_cluster_low : Nat
  file_size : Nat
deriving DecidableEq, Repr

/-- Embedding of Fat32Parser::get_fat_offset (fat32_parser.cpp
lines 505-507). -/
def get_fat_offset (boot : Fat32BootSector) : Nat :=
  boot.reserved_sector_count * boot.bytes_per_sector

/-- Embedding of Fat32Parser::get_data_offset (fat32_parser.cpp
lines 509-511). -/
def get_data_offset (boot : Fat32BootSector) : Nat :=
  get_fat_offset boot + boot.table_count * boot.table_size_32 * boot.bytes_per_sector

/-- Embedding of Fat32Parser::get_cluster_size (fat32_parser.cpp
lines 513-515). -/
def get_cluster_size (boot : Fat32BootSector) : Nat :=
  boot.sectors_per_cluster * boot.bytes_per_sector

/-- Embedding of Fat32Parser::cluster_to_sector (fat32_parser.cpp
lines 500-503). -/
def cluster_to_sector (cluster : Nat) (boot : Fat32BootSector) : Nat :=
  get_data_offset boot / boot.bytes_per_sector + (cluster - 2) * boot.sectors_per_cluster

/-- Embedding of Fat32Parser::is_valid_cluster (fat32_parser.cpp
lines 92-111): clusters 0 and 1 are reserved and values from the bad
cluster marker 0x0FFFFFF7 upward are invalid. -/
def is_valid_cluster (cluster : Nat) : Bool :=
  2 ≤ cluster && cluster < 0x0FFFFFF7

/-- Flag preserved from fat32_parser.cpp line 435: the source keeps the
8+3 characters as stored instead of lowercasing them. -/
def preserve_case : Bool := true

/-- ASCII tolower as std::tolower behaves on the 8+3 name bytes. -/
def toLowerByte (c : Nat) : Nat :=
  if 65 ≤ c ∧ c ≤ 90 then c + 32 else c

/-- Embedding of Fat32Parser::extract_short_name (fat32_parser.cpp
lines 420-464): gather the non-space bytes of the 8-byte base and the
3-byte extension (case preserved, see preserve_case) and join them with a
dot when the extension is non-empty. -/
def extract_short_name (e : Fat32DirEntry) : String :=
  let keep := fun c : Nat => if preserve_case then c else toLowerByte c
  let base := ((List.range 8).map fun i => e.filename.getD i 0).filter (fun c => c ≠ 0x20)
  let ext := (((List.range 3).map fun i => e.filename.getD (8 + i) 0)).filter (fun c => c ≠ 0x20)
  let baseStr := String.mk (base.map fun c => Char.ofNat (keep c))
  let extStr := String.mk (ext.map fun c => Char.ofNat (keep c))
  if extStr = "" then baseStr else baseStr ++ "." ++ extStr

/-- Index of the last dot of the filename, mirroring
std::string::find_last_of inside determine_file_type. -/
def lastDotIdx (l : List Char) : Option Nat :=
  ((List.range l.length).filter fun i => l.getD i ' ' == '.').getLast?

/-- Embedding of Fat32Parser::determine_file_type (fat32_parser.cpp
lines 536-544): the lowercased extension after the last dot, or
"unknown". -/
def determine_file_type (filename : String) : String :=
  let l := filename.data
  match lastDotIdx l with
  | some i => if i + 1 < l.length then String.mk ((l.drop (i + 1)).map Char.toLower)
              else "unknown"
  | none => "unknown"

/-- Embedding of Fat32Parser::parse_dir_entry_to_file (fat32_parser.cpp
lines 393-418): name from the long name when present else the short name,
size from the 32-bit file_size field, confidence written as 85.0, and for
a valid first cluster a single fragment of one cluster size at the
cluster's byte offset.  SIZE_MAX is 2^64 - 1 on the 64-bit hosts the
source targets. -/
def parse_dir_entry_to_file (e : Fat32DirEntry) (long_name : String)
    (boot : Fat32BootSector) (partition_offset : Nat) : RecoveredFile :=
  let filename := if long_name = "" then extract_short_name e else long_name
  let first_cluster := e.first_cluster_high * 65536 + e.first_cluster_low
  let base : RecoveredFile :=
    { filename := filename,
      file_type := determine_file_type filename,
      start_offset := 0,
      file_size := e.file_size,
      confidence_score := 85,
      is_fragmented := false,
      fragments := [] }
  if is_valid_cluster first_cluster ∧ get_fat_offset boot < 2 ^ 64 - 1 then
    let cluster_offset := cluster_to_sector first_cluster boot * boot.bytes_per_sector
    { base with
      start_offset := partition_offset + cluster_offset,
      fragments := [(partition_offset + cluster_offset, get_cluster_size boot)] }
  else base

end Fat32

namespace Ext4

/-- Embedding of the packed Ext4Superblock struct (ext4_parser.h
lines 22-59) at the field level, keeping the fields the embedded
record-building path consults. -/
structure Ext4Superblock where
  s_blocks_count_lo : Nat
  s_log_block_size : Nat
  s_feature_incompat : Nat
  s_feature_ro_compat : Nat
deriving DecidableEq, Repr

/-- Embedding of the packed Ext4Inode struct (ext4_parser.h lines 61-80)
at the field level; i_block holds the fifteen 32-bit block slots. -/
structure Ext4Inode where
  i_mode : Nat
  i_size_lo : Nat
  i_dtime : Nat
  i_links_count : Nat
  i_blocks_lo : Nat
  i_flags : Nat
  i_block : List Nat
  i_size_high : Nat
deriving DecidableEq, Repr

/-- Embedding of Ext4Parser::get_block_size (ext4_parser.cpp
lines 254-256): 1024 << s_log_block_size. -/
def get_block_size (sb : Ext4Superblock) : Nat :=
  1024 * 2 ^ sb.s_log_block_size

/-- Embedding of Ext4Parser::is_deleted_inode (ext4_parser.cpp
lines 295-310): deletion time set, zero links, a size strictly between 0
and 2^30, data blocks, and a regular-file mode (bits 12-15 equal to 8). -/
def is_deleted_inode (inode : Ext4Inode) : Bool :=
  inode.i_dtime ≠ 0 && inode.i_links_count = 0 &&
  (0 < inode.i_size_lo && inode.i_size_lo < 2 ^ 30) &&
  0 < inode.i_blocks_lo && inode.i_mode / 4096 % 16 = 8

/-- Embedding of Ext4Parser::detect_file_type (ext4_parser.cpp
lines 312-355).  The tif test reproduces the source's operator grouping,
where the size bound binds only into the little-endian disjunct.  The
text heuristic compares against min(240, size * 0.9) cast to size_t; for
every size below 2^49 the double product truncates to size * 9 / 10. -/
def detect_file_type (data : Nat → Nat) (size : Nat) : String :=
  if size < 16 then "unknown"
  else if 4 ≤ size ∧ data 0 = 0xFF ∧ data 1 = 0xD8 ∧ data 2 = 0xFF then "jpg"
  else if 8 ≤ size ∧ data 0 = 0x89 ∧ data 1 = 0x50 ∧ data 2 = 0x4E ∧ data 3 = 0x47 then "png"
  else if 5 ≤ size ∧ data 0 = 0x25 ∧ data 1 = 0x50 ∧ data 2 = 0x44 ∧ data 3 = 0x46 ∧
      data 4 = 0x2D then "pdf"
  else if 4 ≤ size ∧ data 0 = 0x50 ∧ data 1 = 0x4B ∧ data 2 = 3 ∧ data 3 = 4 then "zip"
  else if 4 ≤ size ∧ data 0 = 0x25 ∧ data 1 = 0x21 ∧ data 2 = 0x50 ∧ data 3 = 0x53 then "ps"
  else if 3 ≤ size ∧ data 0 = 0x47 ∧ data 1 = 0x49 ∧ data 2 = 0x46 then "gif"
  else if (12 ≤ size ∧ data 0 = 0x49 ∧ data 1 = 0x49 ∧ data 2 = 0x2A ∧ data 3 = 0) ∨
      (data 0 = 0x4D ∧ data 1 = 0x4D ∧ data 2 = 0 ∧ data 3 = 0x2A) then "tif"
  else if 4 ≤ size ∧ data 0 = 0x7F ∧ data 1 = 0x45 ∧ data 2 = 0x4C ∧ data 3 = 0x46 then "elf"
  else
    let text_chars := ((List.range (min 256 size)).filter fun i =>
      (32 ≤ data i ∧ data i ≤ 126) ∨ data i = 10 ∨ data i = 13 ∨ data i = 9).length
    if min 240 (size * 9 / 10) < text_chars then "txt" else "dat"

/-- Direct-block loop of Ext4Parser::parse_deleted_inodes (ext4_parser.cpp
lines 199-218) over the first twelve i_block slots: every slot strictly
between 0 and the block count contributes a fragment of
min(remaining, block_size) bytes at its byte offset, the first one fixing
the start offset, and the walk stops once the remaining size reaches
zero.  The result is (start offset if any block was found, fragments,
remaining bytes). -/
def directGo (partition_offset block_size blocks_count : Nat) :
    List Nat → Nat → Option Nat → List (Nat × Nat) →
    Option Nat × List (Nat × Nat) × Nat
  | [], remaining, start, frags => (start, frags, remaining)
  | b :: bs, remaining, start, frags =>
    if 0 < b ∧ b < blocks_count then
      let use := min remaining block_size
      let start2 := match start with
        | none => some (partition_offset + b * block_size)
        | some s => some s
      let frags2 := frags ++ [(partition_offset + b * block_size, use)]
      let remaining2 := remaining - use
      if remaining2 = 0 then (start2, frags2, 0)
      else directGo partition_offset block_size blocks_count bs remaining2 start2 frags2
    else directGo partition_offset block_size blocks_count bs remaining start frags

/-- Record epilogue of the per-inode loop body (ext4_parser.cpp
lines 164-247): the recovered file named deleted_inode_N.recovered with
the computed size, fragments and start offset, retyped and renamed from
the first up-to-512 content bytes when the start offset lies inside the
buffer, flagged fragmented above one fragment, with confidence written
as 70.0. -/
def finishRecord (data : Nat → Nat) (size partition_offset inode_number
    file_size start : Nat) (frags : List (Nat × Nat)) : RecoveredFile :=
  let base : RecoveredFile :=
    { filename := "deleted_inode_" ++ toString inode_number ++ ".recovered",
      file_type := "",
      start_offset := start,
      file_size := file_size,
      confidence_score := 70,
      is_fragmented := decide (1 < frags.length),
      fragments := frags }
  if start < size then
    let available := min 512 (size - (start - partition_offset))
    if 16 < available then
      let t := detect_file_type (fun j => data (start - partition_offset + j)) available
      { base with
        file_type := t,
        filename := "deleted_" ++ toString inode_number ++ "." ++ t }
    else base
  else base

/-- Embedding of the per-inode body of Ext4Parser::parse_deleted_inodes
(ext4_parser.cpp lines 145-247), the step that turns one inode of the
walked inode tables into a pushed RecoveredFile or a skip: deleted-inode
filter, 64-bit size assembly under the ro_compat bit 1, the empty and
above-1-GiB size skips, the first-extent path when the inode and
filesystem carry the extents flags (first extent approximated by
i_block[3], giving a single fragment of the full size), and the
direct-block path otherwise. -/
def buildRecord (data : Nat → Nat) (size : Nat) (sb : Ext4Superblock)
    (partition_offset inode_number : Nat) (inode : Ext4Inode) :
    Option RecoveredFile :=
  if ¬is_deleted_inode inode then none
  else
    let block_size := get_block_size sb
    let file_size := inode.i_size_lo +
      (if sb.s_feature_ro_compat / 2 % 2 = 1 then 2 ^ 32 * inode.i_size_high else 0)
    if file_size = 0 ∨ 2 ^ 30 < file_size then none
    else
      if inode.i_flags / 2 ^ 19 % 2 = 1 ∧ sb.s_feature_incompat / 2 ^ 6 % 2 = 1 then
        if 0 < file_size ∧ 0 < inode.i_blocks_lo ∧ 0 < inode.i_block.getD 3 0 ∧
            inode.i_block.getD 3 0 < sb.s_blocks_count_lo then
          let start := partition_offset + inode.i_block.getD 3 0 * block_size
          some (finishRecord data size partition_offset inode_number file_size start
            [(start, file_size)])
        else none
      else
        match directGo partition_offset block_size sb.s_blocks_count_lo
            (inode.i_block.take 12) file_size none [] with
        | (some start, frags, _) =>
          some (finishRecord data size partition_offset inode_number file_size start frags)
        | (none, _, _) => none

end Ext4

namespace Ntfs

/-- Little-endian 64-bit read of eight buffer bytes. -/
def readLE64 (data : Nat → Nat) (i : Nat) : Nat :=
  Zip.readLE32 data i + 2 ^ 32 * Zip.readLE32 data (i + 4)

/-- Embedding of the NtfsBootSector fields the embedded paths consult
(ntfs_parser.h lines 21-48). -/
structure NtfsBootSector where
  bytes_per_sector : Nat
  sectors_per_cluster : Nat
deriving DecidableEq, Repr

/-- Embedding of NtfsParser::get_cluster_size (ntfs_parser.cpp
lines 384-386). -/
def get_cluster_size (boot : NtfsBootSector) : Nat :=
  boot.bytes_per_sector * boot.sectors_per_cluster

/-- Embedding of NtfsParser::validate_mft_record (ntfs_parser.cpp
lines 75-91) over the record's bytes: FILE signature, used size at most
the allocated size, allocated size at most 4096.  The packed MftRecord
struct (ntfs_parser.h lines 50-65) reads used_size at byte 24 and
allocated_size at byte 28. -/
def validate_mft_record (rec : Nat → Nat) : Bool :=
  rec 0 = 70 && rec 1 = 73 && rec 2 = 76 && rec 3 = 69 &&
  Zip.readLE32 rec 24 ≤ Zip.readLE32 rec 28 &&
  Zip.readLE32 rec 28 ≤ 4096

/-- Attribute walk of NtfsParser::extract_file_size_attribute
(ntfs_parser.cpp lines 272-295): the packed AttributeHeader
(ntfs_parser.h lines 67-93) is 64 bytes, with type at byte 0, length at
byte 4, the residency flag at byte 8, the resident value length at
byte 16 and the non-resident data size at byte 48.  The first $DATA
attribute's resident value length or non-resident data size is the file
size; the 0xFFFFFFFF end marker or a zero attribute length ends the walk
at 0.  The offset grows by the attribute length each step, so a fuel of
record_size covers every run. -/
def fileSizeGo (rec : Nat → Nat) (record_size : Nat) : Nat → Nat → Nat
  | 0, _ => 0
  | fuel + 1, offset =>
    if offset + 64 < record_size then
      let ty := Zip.readLE32 rec offset
      if ty = 0xFFFFFFFF then 0
      else
        let len := Zip.readLE32 rec (offset + 4)
        if ty = 0x80 ∧ 0 < len then
          if rec (offset + 8) = 0 then Zip.readLE32 rec (offset + 16)
          else readLE64 rec (offset + 48)
        else if len = 0 then 0
        else fileSizeGo rec record_size fuel (offset + len)
    else 0

/-- Embedding of NtfsParser::extract_file_size_attribute: the walk starts
past the 48-byte MftRecord header. -/
def extract_file_size_attribute (rec : Nat → Nat) (record_size : Nat) : Nat :=
  fileSizeGo rec record_size record_size 48

/-- Run-list loop of NtfsParser::parse_data_runs (ntfs_parser.cpp
lines 397-469): each run holds a header byte splitting into length and
offset byte counts, a little-endian run length, and a sign-extended
relative cluster offset accumulated into the last LCN; a non-sparse run
contributes up to min(run_clusters, 10000) cluster start offsets in
64-bit arithmetic, and the walk stops on a zero header byte, a zero
length count, a bound overrun, or more than 50000 collected clusters.
The offset grows by at least one per step, so a fuel of run_length
covers every run. -/
def dataRunsGo (run : Nat → Nat) (run_length cluster_size partition_offset : Nat) :
    Nat → Nat → Int → List Nat → List Nat
  | 0, _, _, clusters => clusters
  | fuel + 1, offset, last, clusters =>
    if offset < run_length ∧ run offset ≠ 0 then
      let header := run offset
      let o1 := offset + 1
      let length_bytes := header % 16
      let offset_bytes := header / 16 % 16
      if length_bytes = 0 then clusters
      else if run_length < o1 + length_bytes then clusters
      else if 0 < offset_bytes ∧ run_length < o1 + length_bytes + offset_bytes then clusters
      else
        let run_clusters := (List.range length_bytes).foldl
          (fun a i => a + run (o1 + i) * 2 ^ (8 * i)) 0
        let o2 := o1 + length_bytes
        if 0 < offset_bytes then
          let raw := (List.range offset_bytes).foldl
            (fun a i => a + run (o2 + i) * 2 ^ (8 * i)) 0
          let signed : Int :=
            if 128 ≤ run (o2 + offset_bytes - 1) then (raw : Int) - 2 ^ (8 * offset_bytes)
            else (raw : Int)
          let last2 := last + signed
          let o3 := o2 + offset_bytes
          let start : Nat :=
            (((partition_offset : Int) + last2 * (cluster_size : Int)) % 2 ^ 64).toNat
          let clusters2 := clusters ++ (List.range (min run_clusters 10000)).map
            fun i => (start + i * cluster_size) % 2 ^ 64
          if 50000 < clusters2.length then clusters2
          else dataRunsGo run run_length cluster_size partition_offset fuel o3 last2 clusters2
        else
          if 50000 < clusters.length then clusters
          else dataRunsGo run run_length cluster_size partition_offset fuel o2 last clusters
    else clusters

/-- Embedding of NtfsParser::parse_data_runs. -/
def parse_data_runs (run : Nat → Nat) (run_length cluster_size partition_offset : Nat) :
    List Nat :=
  dataRunsGo run run_length cluster_size partition_offset run_length 0 0 []

/-- Fragment assembly over the recovered cluster list (ntfs_parser.cpp
lines 339-346): each cluster start carries min(cluster_size, remaining)
bytes while any remain. -/
def fragsOfClusters (cluster_size : Nat) : List Nat → Nat → List (Nat × Nat)
  | [], _ => []
  | c :: cs, remaining =>
    let fragment_size := min cluster_size remaining
    if 0 < fragment_size then
      (c, fragment_size) :: fragsOfClusters cluster_size cs (remaining - fragment_size)
    else fragsOfClusters cluster_size cs remaining

/-- Attribute walk of NtfsParser::extract_data_runs (ntfs_parser.cpp
lines 297-377), carrying the collected locations and the count of $DATA
attributes processed: a resident $DATA attribute whose value fits the
record contributes one location of its value length (value offset at
byte 20 of the attribute), a non-resident one contributes the parsed data
runs capped by its data size when the run list starts inside the record,
and after any $DATA attribute the walk breaks unless the record is
deleted and fewer than three $DATA attributes were seen. -/
def dataRunLocsGo (rec : Nat → Nat) (record_size cluster_size partition_offset : Nat)
    (is_deleted : Bool) : Nat → Nat → Nat → List (Nat × Nat) → List (Nat × Nat)
  | 0, _, _, locs => locs
  | fuel + 1, offset, found, locs =>
    if offset + 64 < record_size then
      let ty := Zip.readLE32 rec offset
      if ty = 0xFFFFFFFF then locs
      else
        let len := Zip.readLE32 rec (offset + 4)
        if ty = 0x80 ∧ 0 < len then
          let step :=
            if rec (offset + 8) = 0 then
              let data_offset := offset + Zip.readLE16 rec (offset + 20)
              let value_length := Zip.readLE32 rec (offset + 16)
              if data_offset + value_length ≤ record_size then
                (locs ++ [(partition_offset + data_offset, value_length)], found + 1)
              else (locs, found)
            else
              let run_list_offset := offset + Zip.readLE16 rec (offset + 32)
              if run_list_offset < record_size then
                let clusters := parse_data_runs (fun j => rec (run_list_offset + j))
                  (record_size - run_list_offset) cluster_size partition_offset
                let data_size := readLE64 rec (offset + 48)
                (locs ++ fragsOfClusters cluster_size clusters data_size, found + 1)
              else (locs, found)
          if ¬is_deleted ∨ 3 ≤ step.2 then step.1
          else if len = 0 then step.1
          else dataRunLocsGo rec record_size cluster_size partition_offset is_deleted
            fuel (offset + len) step.2 step.1
        else if len = 0 then locs
        else dataRunLocsGo rec record_size cluster_size partition_offset is_deleted
          fuel (offset + len) found locs
    else locs

/-- Embedding of NtfsParser::extract_data_runs: the deletion flag comes
from bit 0 of the record flags at byte 22, and the walk starts past the
48-byte header. -/
def extract_data_runs (rec : Nat → Nat) (record_size cluster_size partition_offset : Nat) :
    List (Nat × Nat) :=
  dataRunLocsGo rec record_size cluster_size partition_offset
    (decide (Zip.readLE16 rec 22 % 2 = 0)) record_size 48 0 []

/-- ASCII projection of one UTF-16 filename unit (ntfs_parser.cpp
lines 234-248): printable ASCII kept, control characters become an
underscore, everything else a question mark. -/
def filenameOfUtf16 (l : List Nat) : String :=
  String.mk (l.map fun u =>
    if 32 ≤ u ∧ u < 127 then Char.ofNat u else if u < 32 then '_' else '?')

/-- Attribute walk of NtfsParser::extract_filename_attribute
(ntfs_parser.cpp lines 190-269): every resident $FILE_NAME attribute with
a plausible name length contributes its ASCII-projected name; Win32
namespaces (2 or 3) take precedence once, otherwise the first name found
stays.  Name length sits at byte 64 of the attribute value and the
UTF-16 name at byte 66. -/
def filenameGo (rec : Nat → Nat) (record_size : Nat) :
    Nat → Nat → String → Bool → String
  | 0, _, best, _ => best
  | fuel + 1, offset, best, found_long =>
    if offset + 64 < record_size then
      let ty := Zip.readLE32 rec offset
      if ty = 0xFFFFFFFF then best
      else
        let len := Zip.readLE32 rec (offset + 4)
        let state :=
          if ty = 0x30 ∧ 0 < len ∧ rec (offset + 8) = 0 then
            let value_offset := offset + Zip.readLE16 rec (offset + 20)
            if value_offset + 66 ≤ record_size then
              let name_length := rec (value_offset + 64)
              let namespace_type := rec (value_offset + 65)
              if 0 < name_length ∧ name_length < 256 ∧
                  value_offset + 66 + name_length * 2 ≤ record_size then
                let filename := filenameOfUtf16 ((List.range name_length).map
                  fun i => Zip.readLE16 rec (value_offset + 66 + 2 * i))
                if filename ≠ "" then
                  if (namespace_type = 2 ∨ namespace_type = 3) ∧ ¬found_long then
                    (filename, true)
                  else if ¬found_long then (filename, false)
                  else (best, found_long)
                else (best, found_long)
              else (best, found_long)
            else (best, found_long)
          else (best, found_long)
        if len = 0 then state.1
        else filenameGo rec record_size fuel (offset + len) state.1 state.2
    else best

/-- Embedding of NtfsParser::extract_filename_attribute: default
unknown_file, walk from byte 48. -/
def extract_filename_attribute (rec : Nat → Nat) (record_size : Nat) : String :=
  filenameGo rec record_size record_size 48 "unknown_file" false

/-- Embedding of NtfsParser::parse_mft_record_to_file (ntfs_parser.cpp
lines 151-188): filename and size from the attribute walks over the
record's used size (byte 24), data locations stored as fragments with the
first location fixing the start offset, deletion read from flag bit 0 or
a sequence number above 1 (byte 16), confidence 0.7 for deleted and 0.95
for live records, a DELETED_ filename prefix for deleted ones, and the
file type read after the last dot of the filename. -/
def parse_mft_record_to_file (rec : Nat → Nat) (boot : NtfsBootSector)
    (partition_offset : Nat) : RecoveredFile :=
  let record_size := Zip.readLE32 rec 24
  let fname := extract_filename_attribute rec record_size
  let fsize := extract_file_size_attribute rec record_size
  let locs := extract_data_runs rec record_size (get_cluster_size boot) partition_offset
  let start := match locs with
    | [] => 0
    | (o, _) :: _ => o
  let frags : List (Nat × Nat) := if locs.isEmpty then [] else locs
  let isfrag : Bool := if locs.isEmpty then false else decide (1 < locs.length)
  let is_deleted := Zip.readLE16 rec 22 % 2 = 0 ∨ 1 < Zip.readLE16 rec 16
  let fname2 := if is_deleted then "DELETED_" ++ fname else fname
  let ftype :=
    if fname2 = "" then ""
    else match Fat32.lastDotIdx fname2.data with
      | some i => String.mk (fname2.data.drop (i + 1))
      | none => ""
  { filename := fname2,
    file_type := ftype,
    start_offset := start,
    file_size := fsize,
    confidence_score := if is_deleted then (7 : ℚ)/10 else (19 : ℚ)/20,
    is_fragmented := isfrag,
    fragments := frags }

/-- Loop body of NtfsParser::parse_mft_records (ntfs_parser.cpp
lines 113-145) for one record: invalid records and directories (flag
bit 1) are skipped, and the parsed entry is pushed when its filename is
non-empty and its file size positive. -/
def mft_record_emit (rec : Nat → Nat) (boot : NtfsBootSector)
    (partition_offset : Nat) : Option RecoveredFile :=
  if ¬validate_mft_record rec then none
  else if Zip.readLE16 rec 22 / 2 % 2 = 1 then none
  else
    let entry := parse_mft_record_to_file rec boot partition_offset
    if entry.filename ≠ "" ∧ 0 < entry.file_size then some entry else none

end Ntfs

namespace Engine

/-- Comparator of RecoveryEngine::deduplicateFiles (recovery_engine.cpp
lines 335-341): ascending start_offset, then ascending file_size. -/
def recLt (a b : RecoveredFile) : Bool :=
  if a.start_offset ≠ b.start_offset then a.start_offset < b.start_offset
  else a.file_size < b.file_size

/-- Insertion into a list sorted by recLt. -/
def insertRec (x : RecoveredFile) : List RecoveredFile → List RecoveredFile
  | [] => [x]
  | y :: ys => if recLt y x then y :: insertRec x ys else x :: y :: ys

/-- Sorting pass of deduplicateFiles: the output of std::sort is some
sequence sorted by the comparator; insertion sort realizes it. -/
def sortRecs : List RecoveredFile → List RecoveredFile :=
  List.foldr insertRec []

/-- Equality predicate handed to std::unique (recovery_engine.cpp
lines 343-346). -/
def sameKey (a b : RecoveredFile) : Bool :=
  a.start_offset == b.start_offset && a.file_size == b.file_size

/-- Collapse pass mirroring std::unique: keep the first element of every
run of consecutive entries sharing (start_offset, file_size). -/
def uniqueFrom (a : RecoveredFile) : List RecoveredFile → List RecoveredFile
  | [] => [a]
  | b :: t => if sameKey a b then uniqueFrom a t else a :: uniqueFrom b t

/-- Entry point of the collapse pass. -/
def uniqueRecs : List RecoveredFile → List RecoveredFile
  | [] => []
  | a :: t => uniqueFrom a t

/-- Embedding of RecoveryEngine::deduplicateFiles (recovery_engine.cpp
lines 333-355): sort by (start_offset, file_size), then drop consecutive
duplicates keeping the first. -/
def deduplicateFiles (l : List RecoveredFile) : List RecoveredFile :=
  uniqueRecs (sortRecs l)

/-- Oracle for the operating-system collaborators the engine calls during
start-up: stat/access/type checks and open of the device path performed
by DiskScanner (disk_scanner.cpp lines 27-62 and 213-234), the size
query, std::filesystem::create_directories on the output directory, and
whether the two recovery phases complete without an exception. -/
structure SysEnv where
  statExists : String → Bool
  readPerm : String → Bool
  isRegularOrBlock : String → Bool
  openOk : String → Bool
  deviceSize : String → Nat
  createDirsOk : String → Bool
  phasesOk : Bool

/-- Embedding of DiskScanner::verifyDeviceAccess (disk_scanner.cpp
lines 213-234): stat succeeds, read permission, regular file or block
device. -/
def verifyDeviceAccess (env : SysEnv) (path : String) : Bool :=
  env.statExists path && env.readPerm path && env.isRegularOrBlock path

/-- Embedding of DiskScanner::initialize (disk_scanner.cpp lines 27-62):
access verification, read-only open, and a non-zero device size. -/
def scannerInit (env : SysEnv) (path : String) : Bool :=
  verifyDeviceAccess env path && env.openOk path && env.deviceSize path != 0

/-- Embedding of the control skeleton of RecoveryEngine::startRecovery
(recovery_engine.cpp lines 33-117): an already-running engine fails, a
scanner that cannot initialize yields DEVICE_NOT_FOUND, a failing output
directory creation yields INSUFFICIENT_SPACE, and otherwise the phases
run and the result is SUCCESS unless an exception was caught.  The
recovery phases themselves are abstracted by the phasesOk oracle; the
claims settled against this definition only concern the early exits. -/
def startRecovery (cfg : ScanConfig) (env : SysEnv) (is_running : Bool) :
    RecoveryStatus :=
  if is_running then RecoveryStatus.FAILED
  else if !scannerInit env cfg.device_path then RecoveryStatus.DEVICE_NOT_FOUND
  else if !env.createDirsOk cfg.output_directory then RecoveryStatus.INSUFFICIENT_SPACE
  else if env.phasesOk then RecoveryStatus.SUCCESS else RecoveryStatus.FAILED

end Engine

/-! Concrete inputs used by the witnesses and counterexamples below. -/

/-- Weak order induced by the std::sort comparator of deduplicateFiles:
a precedes-or-ties b. -/
def keyLe (a b : RecoveredFile) : Prop :=
  a.start_offset < b.start_offset ∨
    (a.start_offset = b.start_offset ∧ a.file_size ≤ b.file_size)

/-- Byte buffer denoted by a list: the pointer-plus-length view of a
std::vector, reading 0 past the end. -/
def bufOf (l : List Nat) : Nat → Nat := fun i => l.getD i 0

/-- Pattern search over a list buffer, the find_all of the spec. -/
def findAllList (hay pat : List Nat) : List Nat :=
  findPattern (bufOf hay) hay.length pat

/-- Valid 112-byte JPEG of the unit tests (test_jpeg_carver.cpp
lines 32-48): JFIF header, 100 counter bytes, FF D9 footer. -/
def tjpeg (i : Nat) : Nat :=
  if i < 10 then [0xFF, 0xD8, 0xFF, 0xE0, 0x00, 0x10, 0x4A, 0x46, 0x49, 0x46].getD i 0
  else if i < 110 then i - 10
  else if i = 110 then 0xFF
  else 0xD9

/-- RecoveredFile the JPEG engine emits for the tjpeg buffer. -/
def tjpegFile : RecoveredFile :=
  { filename := generateFilename 0 "jpg",
    file_type := "JPEG",
    start_offset := 0 + 0,
    file_size := 112,
    confidence_score := Jpeg.validateFile (fun j => tjpeg (0 + j)) 112,
    is_fragmented := false,
    fragments := [] }

/-- Payload planted in the scenario S1 buffer: JFIF header, 100 counter
bytes, FF D9 footer (112 bytes). -/
def s1pat (j : Nat) : Nat :=
  if j < 10 then [0xFF, 0xD8, 0xFF, 0xE0, 0x00, 0x10, 0x4A, 0x46, 0x49, 0x46].getD j 0
  else if j < 110 then j - 10
  else if j = 110 then 0xFF
  else 0xD9

/-- Scenario S1 buffer: 1 MiB of 0xAA with the payload overwriting bytes
500000 to 500111. -/
def s1data (i : Nat) : Nat :=
  if i < 500000 then 0xAA
  else if i < 500112 then s1pat (i - 500000)
  else 0xAA

/-- Size of the S1 buffer: 1 MiB. -/
def s1size : Nat := 1048576

/-- RecoveredFile the JPEG engine emits on the S1 buffer. -/
def s1file : RecoveredFile :=
  { filename := generateFilename (0 + 500000) "jpg",
    file_type := "JPEG",
    start_offset := 0 + 500000,
    file_size := 112,
    confidence_score := Jpeg.validateFile (fun j => s1data (500000 + j)) 112,
    is_fragmented := false,
    fragments := [] }

/-- Corrupted 60-byte JPEG of the unit tests: JFIF header then 50 counter
bytes and no footer. -/
def cjpeg (i : Nat) : Nat :=
  if i < 10 then [0xFF, 0xD8, 0xFF, 0xE0, 0x00, 0x10, 0x4A, 0x46, 0x49, 0x46].getD i 0
  else i - 10

/-- Minimal 30-byte ZIP buffer: a bare local file header with empty
name, empty extra field and zero sizes. -/
def zdata (i : Nat) : Nat :=
  if i = 0 then 0x50 else if i = 1 then 0x4B
  else if i = 2 then 0x03 else if i = 3 then 0x04 else 0

/-- FAT32 boot sector of the unit tests (test_fat32_parser.cpp): 512-byte
sectors, one sector per cluster, 32 reserved sectors, two FATs of 100
sectors, root cluster 2. -/
def testBoot : Fat32.Fat32BootSector :=
  { bytes_per_sector := 512,
    sectors_per_cluster := 1,
    reserved_sector_count := 32,
    table_count := 2,
    table_size_16 := 0,
    table_size_32 := 100,
    root_cluster := 2,
    fat_type_label := [0x46, 0x41, 0x54, 0x33, 0x32, 0x20, 0x20, 0x20],
    bootable_partition_signature := 0xAA55 }

/-- Live directory entry "TEST    TXT", cluster 3, 100 bytes
(test_fat32_parser.cpp line 146). -/
def testEntry : Fat32.Fat32DirEntry :=
  { filename := [0x54, 0x45, 0x53, 0x54, 0x20, 0x20, 0x20, 0x20, 0x54, 0x58, 0x54],
    attributes := 0x20,
    first_cluster_high := 0,
    first_cluster_low := 3,
    file_size := 100 }

/-- Deleted-style directory entry "_ELETED TXT", cluster 4, 200 bytes
(scenario S5 of the spec). -/
def delEntry : Fat32.Fat32DirEntry :=
  { filename := [0x5F, 0x45, 0x4C, 0x45, 0x54, 0x45, 0x44, 0x20, 0x54, 0x58, 0x54],
    attributes := 0x20,
    first_cluster_high := 0,
    first_cluster_low := 4,
    file_size := 200 }

/-- Oracle with POSIX behavior on the paths the tests touch: stat and
create_directories fail exactly on the empty path, everything else
succeeds. -/
def env0 : Engine.SysEnv :=
  { statExists := fun s => !s.isEmpty,
    readPerm := fun _ => true,
    isRegularOrBlock := fun _ => true,
    openOk := fun _ => true,
    deviceSize := fun _ => 1048576,
    createDirsOk := fun s => !s.isEmpty,
    phasesOk := true }

/-- Scan configuration with an empty device path. -/
def cfgEmptyDev : ScanConfig :=
  { device_path := "", output_directory := "out" }

/-- Scan configuration with an empty output directory. -/
def cfgEmptyOut : ScanConfig :=
  { device_path := "disk.img", output_directory := "" }

/-- Wording of the amended claim C9, as a specification-side definition:
the produced file name is the 8-byte base of the short name with padding
spaces removed, joined by a dot to the 3-byte extension with padding
spaces removed when that extension is non-empty, with the stored
character case preserved. -/
def shortNameSpec (e : Fat32.Fat32DirEntry) : String :=
  String.mk
    (((((List.range 8).map fun i => e.filename.getD i 0).filter
        fun c => c ≠ 0x20).map fun c => Char.ofNat c) ++
      if (((List.range 3).map fun i => e.filename.getD (8 + i) 0).filter
          fun c => c ≠ 0x20) = [] then []
      else Char.ofNat 0x2E ::
        ((((List.range 3).map fun i => e.filename.getD (8 + i) 0).filter
            fun c => c ≠ 0x20).map fun c => Char.ofNat c))

/-- Superblock for the ext4 counterexample: 1024-byte blocks, 100 blocks,
no extents or 64-bit features. -/
def ext4SB : Ext4.Ext4Superblock :=
  { s_blocks_count_lo := 100,
    s_log_block_size := 0,
    s_feature_incompat := 0,
    s_feature_ro_compat := 0 }

/-- Deleted inode for the ext4 counterexample: a 4096-byte regular file
whose only valid direct block is block 5, so the direct-block walk covers
a single 1024-byte fragment. -/
def ext4Inode1 : Ext4.Ext4Inode :=
  { i_mode := 0x8000,
    i_size_lo := 4096,
    i_dtime := 1,
    i_links_count := 0,
    i_blocks_lo := 2,
    i_flags := 0,
    i_block := [5, 0, 0, 0, 0, 0, 0, 0, 0, 0, 0, 0, 0, 0, 0],
    i_size_high := 0 }

/-- Boot sector for the NTFS counterexample: 512-byte sectors, one sector
per cluster. -/
def ntfsBoot : Ntfs.NtfsBootSector :=
  { bytes_per_sector := 512, sectors_per_cluster := 1 }

/-- MFT record for the NTFS counterexample: a valid in-use FILE record of
used size 120 whose single resident $DATA attribute claims a 100-byte
value at attribute offset 80, which reaches past the used size, so the
size walk reports 100 bytes while the data-run walk collects nothing. -/
def mftRec (i : Nat) : Nat :=
  if i = 0 then 70 else if i = 1 then 73 else if i = 2 then 76 else if i = 3 then 69
  else if i = 16 then 1
  else if i = 22 then 1
  else if i = 24 then 120
  else if i = 29 then 4
  else if i = 48 then 0x80
  else if i = 52 then 72
  else if i = 64 then 100
  else if i = 68 then 80
  else 0

/-! Generic lemmas about the binary primitives. -/

theorem matchAt_iff {data : Nat → Nat} {pat : List Nat} {i : Nat} :
    matchAt data pat i = true ↔ ∀ j < pat.length, data (i + j) = pat.getD j 0 := by
  simp [matchAt, List.all_eq_true, List.mem_range]

theorem filter_range_eq_nil {p : Nat → Bool} {n : Nat}
    (h : ∀ j < n, p j = false) : (List.range n).filter p = [] := by
  simp only [List.filter_eq_nil_iff]
  intro a ha
  simp [h a (List.mem_range.mp ha)]

theorem filter_range_eq_single {p : Nat → Bool} {n k : Nat} (hk : k < n)
    (h : ∀ j, p j = true ↔ j = k) : (List.range n).filter p = [k] := by
  induction n with
  | zero => omega
  | succ m ih =>
    rw [List.range_succ, List.filter_append]
    by_cases hm : k = m
    · have h1 : (List.range m).filter p = [] :=
        filter_range_eq_nil (fun j hj => by
          rcases hp : p j with _ | _
          · rfl
          · exact absurd ((h j).mp hp) (by omega))
      have h2 : p m = true := (h m).mpr hm.symm
      simp [h1, h2, hm]
    · have h1 : (List.range m).filter p = [k] := ih (by omega)
      have h2 : p m = false := by
        rcases hp : p m with _ | _
        · rfl
        · exact absurd ((h m).mp hp) (by omega)
      simp [h1, h2]

theorem mem_findPattern {data : Nat → Nat} {size : Nat} {pat : List Nat} {i : Nat}
    (hne : pat ≠ []) (hle : pat.length ≤ size) :
    i ∈ findPattern data size pat ↔
      i + pat.length ≤ size ∧ matchAt data pat i = true := by
  unfold findPattern
  rw [if_neg (by push_neg; exact ⟨hne, hle⟩)]
  simp only [List.mem_filter, List.mem_range]
  constructor
  · rintro ⟨hr, hm⟩
    exact ⟨by omega, hm⟩
  · rintro ⟨hr, hm⟩
    exact ⟨by omega, hm⟩

theorem findPattern_eq_nil {data : Nat → Nat} {size : Nat} {pat : List Nat}
    (h : ∀ j, matchAt data pat j = false) :
    findPattern data size pat = [] := by
  unfold findPattern
  split
  · rfl
  · exact filter_range_eq_nil (fun j _ => h j)

theorem findPattern_eq_single {data : Nat → Nat} {size : Nat} {pat : List Nat}
    {k : Nat} (hne : pat ≠ []) (hk : k + pat.length ≤ size)
    (h : ∀ j, matchAt data pat j = true ↔ j = k) :
    findPattern data size pat = [k] := by
  unfold findPattern
  have h2 : 0 < pat.length := by
    cases pat with
    | nil => exact absurd rfl hne
    | cons a t => simp
  rw [if_neg (by push_neg; exact ⟨hne, by omega⟩)]
  exact filter_range_eq_single (by omega) h

theorem find?_range'_eq_some {p : Nat → Bool} {a n k : Nat} (h1 : a ≤ k)
    (h2 : k < a + n) (hlt : ∀ i, a ≤ i → i < k → p i = false)
    (hk : p k = true) : (List.range' a n).find? p = some k := by
  induction n generalizing a with
  | zero => omega
  | succ m ih =>
    rw [List.range'_succ, List.find?_cons]
    by_cases hak : a = k
    · subst hak
      rw [hk]
    · have hpa : p a = false := hlt a le_rfl (by omega)
      rw [hpa]
      exact ih (by omega) (by omega) (fun i hi1 hi2 => hlt i (by omega) hi2)

/-! Bounds for the JPEG segment-chain estimate and end search. -/

theorem estimateGo_le {data : Nat → Nat} {m : Nat} :
    ∀ (fuel offset last : Nat), last ≤ m →
      Jpeg.estimateGo data m fuel offset last ≤ m := by
  intro fuel
  induction fuel with
  | zero => intro offset last h; simpa [Jpeg.estimateGo]
  | succ n ih =>
    intro offset last h
    simp only [Jpeg.estimateGo]
    split
    · split
      · exact h
      · split
        · omega
        · split
          · exact ih _ _ (by omega)
          · split
            · exact h
            · split
              · exact h
              · split
                · omega
                · exact ih _ _ (by omega)
    · exact h

theorem estimateSizeFromSegments_le {data : Nat → Nat} {m : Nat} (h : 2 ≤ m) :
    Jpeg.estimateSizeFromSegments data m ≤ m :=
  estimateGo_le _ _ _ h

theorem findJpegEnd_le {data : Nat → Nat} {size start : Nat} :
    Jpeg.findJpegEnd data size start ≤ size - start := by
  unfold Jpeg.findJpegEnd
  split
  · omega
  · rename_i hgt
    rcases hf : (List.range' (start + 10)
        (min (size - 1) (start + Jpeg.getMaxFileSize + 2) - (start + 10))).find?
        (fun i => data i == 0xFF && data (i + 1) == 0xD9) with _ | i
    · simp only [hf]
      exact estimateSizeFromSegments_le (by omega)
    · simp only [hf]
      have hmem := List.mem_of_find?_eq_some hf
      rw [List.mem_range'] at hmem
      omega

/-! Bounds on the confidence combinations. -/

theorem calcScore_nonneg (h f eH eM s : Bool) :
    0 ≤ calculateConfidenceScore h f eH eM s := by
  cases h <;> cases f <;> cases eH <;> cases eM <;> cases s <;>
    norm_num [calculateConfidenceScore, min_def]

theorem calcScore_ge_of_true (eH eM : Bool) :
    (7 : ℚ)/10 ≤ calculateConfidenceScore true true eH eM true := by
  cases eH <;> cases eM <;> norm_num [calculateConfidenceScore, min_def]

theorem calcScore_gt_threshold (eH eM : Bool) :
    (3 : ℚ)/10 < calculateConfidenceScore true true eH eM true :=
  lt_of_lt_of_le (by norm_num) (calcScore_ge_of_true eH eM)

theorem zip_confidenceAfterHeader_ge_half (data : Nat → Nat) (n : Nat) :
    (1 : ℚ)/2 ≤ Zip.confidenceAfterHeader data n := by
  unfold Zip.confidenceAfterHeader
  split_ifs <;> norm_num

theorem zip_confidenceAfterEocd_ge_half (data : Nat → Nat) (n : Nat) :
    (1 : ℚ)/2 ≤ Zip.confidenceAfterEocd data n := by
  have h1 := zip_confidenceAfterHeader_ge_half data n
  unfold Zip.confidenceAfterEocd
  split_ifs
  · linarith
  · exact le_min h1 (by norm_num)

theorem zip_calculateConfidence_ge_half (data : Nat → Nat) (n : Nat) :
    (1 : ℚ)/2 ≤ Zip.calculateConfidence data n := by
  have h1 := zip_confidenceAfterEocd_ge_half data n
  unfold Zip.calculateConfidence
  refine le_min ?_ (by norm_num)
  split_ifs
  · linarith
  · exact h1

/-! Structural lemmas for the ZIP carve pipeline. -/

theorem mem_insertByOffset {x c : Zip.ZipCandidate} :
    ∀ {l : List Zip.ZipCandidate}, x ∈ Zip.insertByOffset c l → x = c ∨ x ∈ l
  | [], h => by simpa [Zip.insertByOffset] using h
  | d :: t, h => by
    simp only [Zip.insertByOffset] at h
    split at h
    · rcases List.mem_cons.mp h with h | h
      · right; exact List.mem_cons.mpr (Or.inl h)
      · rcases mem_insertByOffset h with h | h
        · left; exact h
        · right; exact List.mem_cons.mpr (Or.inr h)
    · exact (List.mem_cons.mp h).imp id id

theorem mem_sortCandidates {x : Zip.ZipCandidate} :
    ∀ {l : List Zip.ZipCandidate}, x ∈ Zip.sortCandidates l → x ∈ l
  | [], h => by simpa [Zip.sortCandidates] using h
  | c :: t, h => by
    have h1 : Zip.sortCandidates (c :: t) =
        Zip.insertByOffset c (Zip.sortCandidates t) := rfl
    rw [h1] at h
    rcases mem_insertByOffset h with h | h
    · exact List.mem_cons.mpr (Or.inl h)
    · exact List.mem_cons.mpr (Or.inr (mem_sortCandidates h))

theorem mem_uniqueByOffsetFrom {x : Zip.ZipCandidate} :
    ∀ {t : List Zip.ZipCandidate} {a : Zip.ZipCandidate},
      x ∈ Zip.uniqueByOffsetFrom a t → x = a ∨ x ∈ t
  | [], a, h => by simpa [Zip.uniqueByOffsetFrom] using h
  | b :: t, a, h => by
    simp only [Zip.uniqueByOffsetFrom] at h
    split at h
    · rcases mem_uniqueByOffsetFrom h with h | h
      · left; exact h
      · right; exact List.mem_cons.mpr (Or.inr h)
    · rcases List.mem_cons.mp h with h | h
      · left; exact h
      · rcases mem_uniqueByOffsetFrom h with h | h
        · right; exact List.mem_cons.mpr (Or.inl h)
        · right; exact List.mem_cons.mpr (Or.inr h)

theorem mem_uniqueByOffset {x : Zip.ZipCandidate} {l : List Zip.ZipCandidate}
    (h : x ∈ Zip.uniqueByOffset l) : x ∈ l := by
  cases l with
  | nil => simpa [Zip.uniqueByOffset] using h
  | cons a t =>
    rcases mem_uniqueByOffsetFrom h with h | h
    · exact List.mem_cons.mpr (Or.inl h)
    · exact List.mem_cons.mpr (Or.inr h)

theorem mem_overlapFilter {x : Zip.ZipCandidate} :
    ∀ {e : Nat} {l : List Zip.ZipCandidate}, x ∈ Zip.overlapFilter e l → x ∈ l
  | _, [], h => by simpa [Zip.overlapFilter] using h
  | e, c :: t, h => by
    simp only [Zip.overlapFilter] at h
    split at h
    · exact List.mem_cons.mpr (Or.inr (mem_overlapFilter h))
    · rcases List.mem_cons.mp h with h | h
      · exact List.mem_cons.mpr (Or.inl h)
      · exact List.mem_cons.mpr (Or.inr (mem_overlapFilter h))

set_option maxHeartbeats 1000000 in
theorem collectCandidates_props {data : Nat → Nat} {size : Nat}
    {c : Zip.ZipCandidate} (h : c ∈ Zip.collectCandidates data size) :
    c.offset + Zip.localHeaderSize ≤ size ∧ c.offset + c.zip_size ≤ size ∧
      (1 : ℚ)/2 ≤ c.confidence := by
  unfold Zip.collectCandidates at h
  rw [List.mem_flatMap] at h
  obtain ⟨sig, _, h⟩ := h
  rw [List.mem_filterMap] at h
  obtain ⟨off, _, h⟩ := h
  simp only at h
  set zs0 := Zip.calculate_zip_size (fun j => data (off + j)) (size - off) with hzs0
  set zs1 := if zs0 = 0 then size - off else zs0 with hzs1
  set zs := if size < off + zs1 then size - off else zs1 with hzs
  by_cases h30 : size < off + Zip.localHeaderSize
  · rw [if_pos h30] at h
    exact absurd h (by simp)
  rw [if_neg h30] at h
  have hzsle : off + zs ≤ size := by
    rw [hzs]; split <;> omega
  by_cases htest : size < 1000
  · rw [if_pos htest, if_pos rfl] at h
    rw [if_neg (by omega)] at h
    rw [Option.some.injEq] at h
    subst h
    refine ⟨by dsimp only; omega, by dsimp only; exact hzsle, ?_⟩
    dsimp only
    rw [if_pos htest]
    split <;> norm_num
  · rw [if_neg htest] at h
    by_cases hv : Zip.validate_local_file_header data off = true
    · rw [hv, if_pos rfl] at h
      by_cases hz0 : zs0 = 0
      · rw [if_pos ⟨hz0, htest⟩] at h
        exact absurd h (by simp)
      · rw [if_neg (by tauto)] at h
        rw [Option.some.injEq] at h
        subst h
        refine ⟨by dsimp only; omega, by dsimp only; exact hzsle, ?_⟩
        dsimp only
        rw [if_neg htest]
        exact zip_calculateConfidence_ge_half _ _
    · rw [Bool.not_eq_true] at hv
      rw [hv, if_neg (by simp)] at h
      exact absurd h (by simp)

theorem zip_carve_shape {data : Nat → Nat} {size base : Nat} {f : RecoveredFile}
    (h : f ∈ Zip.carveFiles data size base) :
    ∃ c ∈ Zip.collectCandidates data size, f = Zip.toRecovered base c := by
  unfold Zip.carveFiles at h
  split at h
  · simp at h
  · rw [List.mem_map] at h
    obtain ⟨c, hc, hf⟩ := h
    exact ⟨c, mem_sortCandidates (mem_uniqueByOffset (mem_overlapFilter hc)), hf.symm⟩

theorem mem_findPattern_bound {data : Nat → Nat} {size : Nat} {pat : List Nat}
    {m : Nat} (h : m ∈ findPattern data size pat) : m + pat.length ≤ size := by
  unfold findPattern at h
  split at h
  · simp at h
  · rw [List.mem_filter, List.mem_range] at h
    rename_i hg
    push_neg at hg
    omega

theorem jpeg_carve_props {data : Nat → Nat} {size base : Nat} {f : RecoveredFile}
    (h : f ∈ Jpeg.carveFiles data size base) :
    base ≤ f.start_offset ∧ f.start_offset + f.file_size ≤ base + size ∧
      (3 : ℚ)/10 < f.confidence_score ∧ 100 ≤ f.file_size ∧ f.fragments = [] := by
  unfold Jpeg.carveFiles at h
  split at h
  · simp at h
  rw [List.mem_flatMap] at h
  obtain ⟨sig, _, h⟩ := h
  rw [List.mem_filterMap] at h
  obtain ⟨m, hm, h⟩ := h
  simp only at h
  split at h
  · simp at h
  rename_i hjs
  split at h
  · rename_i hconf
    rw [Option.some.injEq] at h
    subst h
    have hmle : m ≤ size := by
      have := mem_findPattern_bound hm
      omega
    have hend : Jpeg.findJpegEnd data size m ≤ size - m := findJpegEnd_le
    exact ⟨by dsimp only; omega, by dsimp only; omega,
      by dsimp only; exact hconf, by dsimp only; omega, by dsimp only⟩
  · simp at h

theorem pdf_carve_fragments {data : Nat → Nat} {size base : Nat} {f : RecoveredFile}
    (h : f ∈ Pdf.carveFiles data size base) : f.fragments = [] ∧ 0 < f.file_size := by
  unfold Pdf.carveFiles at h
  split at h
  · simp at h
  rw [List.mem_flatMap] at h
  obtain ⟨sig, _, h⟩ := h
  rw [List.mem_filterMap] at h
  obtain ⟨m, hm, h⟩ := h
  simp only at h
  split at h
  · simp at h
  rename_i hsz
  push_neg at hsz
  split at h
  · split at h
    · rw [Option.some.injEq] at h
      subst h
      exact ⟨by dsimp only, by dsimp only; omega⟩
    · simp at h
  · split at h
    · rw [Option.some.injEq] at h
      subst h
      exact ⟨by dsimp only, by dsimp only; omega⟩
    · simp at h

/-! Lemmas for the PNG engine. -/

theorem png_go_le {data : Nat → Nat} {size : Nat} :
    ∀ (fuel offset e : Nat), Png.findPngEndGo data size fuel offset = some e →
      e ≤ size + 3 := by
  intro fuel
  induction fuel with
  | zero => intro offset e h; simp [Png.findPngEndGo] at h
  | succ n ih =>
    intro offset e h
    unfold Png.findPngEndGo at h
    split at h
    · split at h
      · rw [Option.some.injEq] at h
        subst h
        rename_i h8 hb
        omega
      · dsimp only at h
        split at h
        · exact ih _ _ h
        · exact ih _ _ h
    · simp at h

theorem findPngEnd_le {data : Nat → Nat} {size start : Nat} (h : start ≤ size) :
    start + Png.findPngEnd data size start ≤ size + 3 := by
  unfold Png.findPngEnd
  split
  · omega
  · split
    · rename_i e he
      have := png_go_le _ _ _ he
      omega
    · omega

theorem png_carve_props {data : Nat → Nat} {size base : Nat} {f : RecoveredFile}
    (h : f ∈ Png.carveFiles data size base) :
    base ≤ f.start_offset ∧ f.start_offset + f.file_size ≤ base + size + 3 ∧
    (1 : ℚ)/10 < f.confidence_score ∧
    (size ≤ 5000 → (3 : ℚ)/10 < f.confidence_score) ∧
    f.fragments = [] ∧ 0 < f.file_size := by
  unfold Png.carveFiles at h
  split at h
  · simp at h
  rw [List.mem_filterMap] at h
  obtain ⟨m, hm, h⟩ := h
  have hmb : m + 8 ≤ size := by
    have := mem_findPattern_bound hm
    simpa [Png.PNG_SIGNATURE] using this
  have hle : m + Png.findPngEnd data size m ≤ size + 3 := findPngEnd_le (by omega)
  simp only at h
  split at h
  · simp at h
  rename_i hskip
  push_neg at hskip
  split at h
  · rw [Option.some.injEq] at h
    subst h
    refine ⟨by dsimp only; omega, by dsimp only; omega, ?_, ?_, by dsimp only, ?_⟩
    · dsimp only
      split_ifs <;> norm_num
    · intro _
      dsimp only
      split_ifs <;> norm_num
    · dsimp only
      omega
  · split at h
    · rename_i hbig
      split at h
      · rename_i hconf
        rw [Option.some.injEq] at h
        subst h
        refine ⟨by dsimp only; omega, by dsimp only; omega, ?_, ?_, by dsimp only, ?_⟩
        · exact hconf
        · intro hs
          exact absurd hs (by omega)
        · dsimp only
          omega
      · simp at h
    · rename_i hbig
      split at h
      · rename_i hconf
        rw [Option.some.injEq] at h
        subst h
        refine ⟨by dsimp only; omega, by dsimp only; omega, ?_, ?_, by dsimp only, ?_⟩
        · exact lt_trans (by norm_num) hconf
        · intro _
          exact hconf
        · dsimp only
          omega
      · simp at h

theorem directGo_sum {p bs bc : Nat} :
    ∀ (blocks : List Nat) (remaining : Nat) (start : Option Nat)
      (frags : List (Nat × Nat)) (st : Option Nat) (fr : List (Nat × Nat)) (rem : Nat),
      Ext4.directGo p bs bc blocks remaining start frags = (st, fr, rem) →
      (fr.map Prod.snd).sum + rem = (frags.map Prod.snd).sum + remaining := by
  intro blocks
  induction blocks with
  | nil =>
    intro remaining start frags st fr rem h
    unfold Ext4.directGo at h
    simp only [Prod.mk.injEq] at h
    obtain ⟨h1, h2, h3⟩ := h
    subst h2
    subst h3
    rfl
  | cons b bs2 ih =>
    intro remaining start frags st fr rem h
    unfold Ext4.directGo at h
    split at h
    · dsimp only at h
      split at h
      · rename_i hz
        simp only [Prod.mk.injEq] at h
        obtain ⟨h1, h2, h3⟩ := h
        subst h2
        subst h3
        simp only [List.map_append, List.sum_append, List.map_cons, List.sum_cons,
          List.map_nil, List.sum_nil]
        omega
      · have := ih _ _ _ _ _ _ h
        simp only [List.map_append, List.sum_append, List.map_cons, List.sum_cons,
          List.map_nil, List.sum_nil] at this
        omega
    · exact ih _ _ _ _ _ _ h

theorem finishRecord_proj (data : Nat → Nat) (size p n fs st : Nat)
    (fr : List (Nat × Nat)) :
    (Ext4.finishRecord data size p n fs st fr).fragments = fr ∧
    (Ext4.finishRecord data size p n fs st fr).file_size = fs ∧
    (Ext4.finishRecord data size p n fs st fr).start_offset = st := by
  unfold Ext4.finishRecord
  dsimp only
  split_ifs <;> exact ⟨rfl, rfl, rfl⟩

theorem ext4_fragment_props {data : Nat → Nat} {size : Nat} {sb : Ext4.Ext4Superblock}
    {p n : Nat} {inode : Ext4.Ext4Inode} {r : RecoveredFile}
    (h : Ext4.buildRecord data size sb p n inode = some r) :
    (r.fragments.map Prod.snd).sum ≤ r.file_size ∧
    (inode.i_flags / 2 ^ 19 % 2 = 1 ∧ sb.s_feature_incompat / 2 ^ 6 % 2 = 1 →
      r.fragments = [(r.start_offset, r.file_size)]) := by
  unfold Ext4.buildRecord at h
  split at h
  · simp at h
  dsimp only at h
  split at h
  · split at h
    · simp at h
    · split at h
      · split at h
        · rw [Option.some.injEq] at h
          subst h
          rw [(finishRecord_proj _ _ _ _ _ _ _).1, (finishRecord_proj _ _ _ _ _ _ _).2.1,
            (finishRecord_proj _ _ _ _ _ _ _).2.2]
          exact ⟨by simp, fun _ => rfl⟩
        · simp at h
      · rename_i hext
        split at h
        · rename_i heq
          rw [Option.some.injEq] at h
          subst h
          rw [(finishRecord_proj _ _ _ _ _ _ _).1, (finishRecord_proj _ _ _ _ _ _ _).2.1]
          have hsum := directGo_sum _ _ _ _ _ _ _ heq
          refine ⟨?_, fun hc => absurd hc hext⟩
          simp only [List.map_nil, List.sum_nil] at hsum
          omega
        · simp at h
  · split at h
    · simp at h
    · split at h
      · split at h
        · rw [Option.some.injEq] at h
          subst h
          rw [(finishRecord_proj _ _ _ _ _ _ _).1, (finishRecord_proj _ _ _ _ _ _ _).2.1,
            (finishRecord_proj _ _ _ _ _ _ _).2.2]
          exact ⟨by simp, fun _ => rfl⟩
        · simp at h
      · rename_i hext
        split at h
        · rename_i heq
          rw [Option.some.injEq] at h
          subst h
          rw [(finishRecord_proj _ _ _ _ _ _ _).1, (finishRecord_proj _ _ _ _ _ _ _).2.1]
          have hsum := directGo_sum _ _ _ _ _ _ _ heq
          refine ⟨?_, fun hc => absurd hc hext⟩
          simp only [List.map_nil, List.sum_nil] at hsum
          omega
        · simp at h

/-! Lemmas for the deduplication pass of the recovery engine. -/

theorem recLt_iff {a b : RecoveredFile} :
    Engine.recLt a b = true ↔
      (a.start_offset < b.start_offset ∨
        (a.start_offset = b.start_offset ∧ a.file_size < b.file_size)) := by
  unfold Engine.recLt
  split_ifs with h <;> simp <;> omega

theorem keyLe_of_not_recLt {a b : RecoveredFile}
    (h : ¬Engine.recLt b a = true) : keyLe a b := by
  rw [recLt_iff] at h
  unfold keyLe
  omega

theorem keyLe_of_recLt {a b : RecoveredFile}
    (h : Engine.recLt a b = true) : keyLe a b := by
  rw [recLt_iff] at h
  unfold keyLe
  omega

theorem keyLe_trans {a b c : RecoveredFile} (h1 : keyLe a b) (h2 : keyLe b c) :
    keyLe a c := by
  unfold keyLe at h1 h2 ⊢
  omega

theorem mem_insertRec {x c : RecoveredFile} :
    ∀ {l : List RecoveredFile}, x ∈ Engine.insertRec c l → x = c ∨ x ∈ l
  | [], h => by simpa [Engine.insertRec] using h
  | d :: t, h => by
    simp only [Engine.insertRec] at h
    split at h
    · rcases List.mem_cons.mp h with h | h
      · right; exact List.mem_cons.mpr (Or.inl h)
      · rcases mem_insertRec h with h | h
        · left; exact h
        · right; exact List.mem_cons.mpr (Or.inr h)
    · exact (List.mem_cons.mp h).imp id id

theorem sorted_insertRec {x : RecoveredFile} :
    ∀ {l : List RecoveredFile}, List.Sorted keyLe l →
      List.Sorted keyLe (Engine.insertRec x l)
  | [], _ => by simp [Engine.insertRec]
  | y :: ys, h => by
    simp only [Engine.insertRec]
    split
    · rename_i hlt
      rw [List.sorted_cons]
      refine ⟨?_, sorted_insertRec h.of_cons⟩
      intro b hb
      rcases mem_insertRec hb with rfl | hb
      · exact keyLe_of_recLt hlt
      · exact List.rel_of_sorted_cons h b hb
    · rename_i hnlt
      rw [List.sorted_cons]
      refine ⟨?_, h⟩
      intro b hb
      rcases List.mem_cons.mp hb with rfl | hb
      · exact keyLe_of_not_recLt hnlt
      · exact keyLe_trans (keyLe_of_not_recLt hnlt) (List.rel_of_sorted_cons h b hb)

theorem sorted_sortRecs : ∀ l : List RecoveredFile,
    List.Sorted keyLe (Engine.sortRecs l)
  | [] => by simp [Engine.sortRecs]
  | c :: t => by
    have h1 : Engine.sortRecs (c :: t) = Engine.insertRec c (Engine.sortRecs t) := rfl
    rw [h1]
    exact sorted_insertRec (sorted_sortRecs t)

theorem mem_uniqueFrom {x : RecoveredFile} :
    ∀ {t : List RecoveredFile} {a : RecoveredFile},
      x ∈ Engine.uniqueFrom a t → x = a ∨ x ∈ t
  | [], a, h => by simpa [Engine.uniqueFrom] using h
  | b :: t, a, h => by
    simp only [Engine.uniqueFrom] at h
    split at h
    · rcases mem_uniqueFrom h with h | h
      · left; exact h
      · right; exact List.mem_cons.mpr (Or.inr h)
    · rcases List.mem_cons.mp h with h | h
      · left; exact h
      · rcases mem_uniqueFrom h with h | h
        · right; exact List.mem_cons.mpr (Or.inl h)
        · right; exact List.mem_cons.mpr (Or.inr h)

theorem uniqueFrom_pairwise :
    ∀ {t : List RecoveredFile} {a : RecoveredFile},
      List.Sorted keyLe (a :: t) →
      List.Pairwise
        (fun x y => ¬(x.start_offset = y.start_offset ∧ x.file_size = y.file_size))
        (Engine.uniqueFrom a t)
  | [], a, _ => by simp [Engine.uniqueFrom]
  | b :: t, a, h => by
    have hab : keyLe a b := List.rel_of_sorted_cons h b (List.mem_cons_self b t)
    have hbt : List.Sorted keyLe (b :: t) := h.of_cons
    have hat : List.Sorted keyLe (a :: t) :=
      h.sublist (List.Sublist.cons₂ a (List.sublist_cons_self b t))
    simp only [Engine.uniqueFrom]
    split
    · exact uniqueFrom_pairwise hat
    · rename_i hdiff
      rw [List.pairwise_cons]
      refine ⟨?_, uniqueFrom_pairwise hbt⟩
      intro x hx
      have hdiff2 : ¬(a.start_offset = b.start_offset ∧ a.file_size = b.file_size) := by
        simpa [Engine.sameKey] using hdiff
      rcases mem_uniqueFrom hx with rfl | hx
      · exact hdiff2
      · have hbx : keyLe b x := List.rel_of_sorted_cons hbt x hx
        unfold keyLe at hab hbx
        omega

/-! Concatenation behavior of the pattern search (claim C5). -/

theorem all_congr {α : Type} {f g : α → Bool} :
    ∀ {l : List α}, (∀ x ∈ l, f x = g x) → l.all f = l.all g
  | [], _ => rfl
  | x :: t, h => by
    simp only [List.all_cons, h x (List.mem_cons_self x t),
      all_congr (fun y hy => h y (List.mem_cons.mpr (Or.inr hy)))]

theorem matchAt_congr {d1 d2 : Nat → Nat} {p : List Nat} {i : Nat}
    (h : ∀ j < p.length, d1 (i + j) = d2 (i + j)) :
    matchAt d1 p i = matchAt d2 p i := by
  unfold matchAt
  exact all_congr fun j hj => by rw [h j (List.mem_range.mp hj)]

theorem matchAt_append_left {a b p : List Nat} {i : Nat}
    (h : i + p.length ≤ a.length) :
    matchAt (bufOf (a ++ b)) p i = matchAt (bufOf a) p i :=
  matchAt_congr fun j hj => by
    unfold bufOf
    rw [List.getD_append]
    omega

theorem matchAt_append_right {a b p : List Nat} {k : Nat} :
    matchAt (bufOf (a ++ b)) p (a.length + k) = matchAt (bufOf b) p k := by
  unfold matchAt
  apply all_congr
  intro j _
  have h1 : bufOf (a ++ b) (a.length + k + j) = bufOf b (k + j) := by
    unfold bufOf
    rw [show a.length + k + j = a.length + (k + j) by omega,
      List.getD_append_right _ _ _ _ (by omega)]
    congr 1
    omega
  rw [h1]

theorem findAllList_append (a b p : List Nat) (hpb : p.length ≤ b.length)
    (hstrad : ∀ i < a.length,
      matchAt (bufOf (a ++ b)) p i = true → i + p.length ≤ a.length) :
    findAllList (a ++ b) p =
      findAllList a p ++ (findAllList b p).map (a.length + ·) := by
  by_cases hpe : p = []
  · subst hpe
    simp [findAllList, findPattern]
  have hplen : 0 < p.length := List.length_pos.mpr hpe
  have hlenab : (a ++ b).length = a.length + b.length := List.length_append a b
  set A := a.length with hA
  set N := a.length + b.length - p.length + 1 with hNdef
  set n1 := A + 1 - p.length with hn1
  set P := matchAt (bufOf (a ++ b)) p with hP
  have hL : findAllList (a ++ b) p = (List.range N).filter P := by
    unfold findAllList findPattern
    rw [if_neg (by push_neg; refine ⟨hpe, ?_⟩; omega)]
    rw [hlenab]
  rw [hL]
  have hsplit1 : List.range N = List.range' 0 n1 ++ List.range' n1 (N - n1) := by
    have h := List.range'_append 0 n1 (N - n1) 1
    simp only [Nat.one_mul, Nat.zero_add] at h
    rw [show N - n1 + n1 = N from by omega] at h
    rw [List.range_eq_range']
    exact h.symm
  have hsplit2 : List.range' n1 (N - n1) =
      List.range' n1 (A - n1) ++ List.range' A (N - A) := by
    have h := List.range'_append n1 (A - n1) (N - A) 1
    simp only [Nat.one_mul] at h
    rw [show n1 + (A - n1) = A from by omega] at h
    rw [show N - A + (A - n1) = N - n1 from by omega] at h
    exact h.symm
  rw [hsplit1, hsplit2, List.filter_append, List.filter_append]
  have hpart2 : (List.range' n1 (A - n1)).filter P = [] := by
    rw [List.filter_eq_nil_iff]
    intro i hi
    rw [List.mem_range'] at hi
    intro hPi
    have := hstrad i (by omega) hPi
    omega
  have hpart1 : (List.range' 0 n1).filter P = findAllList a p := by
    by_cases hpa : p.length ≤ A
    · unfold findAllList findPattern
      rw [if_neg (by push_neg; exact ⟨hpe, by omega⟩)]
      rw [show (List.range' 0 n1) = List.range n1 by rw [List.range_eq_range'],
        show A - p.length + 1 = n1 by omega]
      apply List.filter_congr
      intro i hi
      rw [List.mem_range] at hi
      rw [hP]
      exact matchAt_append_left (by omega)
    · have h0 : n1 = 0 := by omega
      rw [h0]
      unfold findAllList findPattern
      rw [if_pos (by right; omega)]
      rfl
  have hpart3 : (List.range' A (N - A)).filter P =
      (findAllList b p).map (A + ·) := by
    have hM : N - A = b.length - p.length + 1 := by omega
    have hfb : findAllList b p =
        (List.range (b.length - p.length + 1)).filter (matchAt (bufOf b) p) := by
      unfold findAllList findPattern
      rw [if_neg (by push_neg; exact ⟨hpe, by omega⟩)]
    rw [hM, List.range'_eq_map_range, hfb, List.map_filter]
    congr 1
    apply List.filter_congr
    intro i _
    show P (A + i) = matchAt (bufOf b) p i
    rw [hP]
    exact matchAt_append_right
  rw [hpart1, hpart2, hpart3]
  simp

/-! Evaluation helpers: closed forms of the carve pipelines on buffers
with a single signature hit. -/

theorem jpeg_carve_singleton {data : Nat → Nat} {size base m jsize : Nat}
    (h10 : ¬size < 10)
    (hfp1 : findPattern data size [0xFF, 0xD8, 0xFF, 0xE0] = [m])
    (hfp2 : findPattern data size [0xFF, 0xD8, 0xFF, 0xE1] = [])
    (hfp3 : findPattern data size [0xFF, 0xD8, 0xFF, 0xDB] = [])
    (hend : Jpeg.findJpegEnd data size m = jsize)
    (hj0 : ¬(jsize = 0 ∨ jsize < 100))
    (hconf : (3 : ℚ)/10 < Jpeg.validateFile (fun j => data (m + j)) jsize) :
    Jpeg.carveFiles data size base =
      [{ filename := generateFilename (base + m) "jpg",
         file_type := "JPEG",
         start_offset := base + m,
         file_size := jsize,
         confidence_score := Jpeg.validateFile (fun j => data (m + j)) jsize,
         is_fragmented := false,
         fragments := [] }] := by
  unfold Jpeg.carveFiles
  rw [if_neg h10]
  simp only [Jpeg.getFileSignatures, List.flatMap_cons, List.flatMap_nil,
    hfp1, hfp2, hfp3, List.filterMap_cons, List.filterMap_nil,
    List.append_nil, hend]
  rw [if_neg hj0, if_pos hconf]

theorem zip_carve_of_single {data : Nat → Nat} {size base : Nat}
    {c : Zip.ZipCandidate} (h4 : ¬size < 4)
    (hcand : Zip.collectCandidates data size = [c]) :
    Zip.carveFiles data size base = [Zip.toRecovered base c] := by
  unfold Zip.carveFiles
  rw [if_neg h4, hcand]
  have h1 : Zip.sortCandidates [c] = [c] := rfl
  have h2 : Zip.uniqueByOffset [c] = [c] := rfl
  rw [h1, h2]
  simp [Zip.overlapFilter]

theorem tjpeg_conf_ge : (7 : ℚ)/10 ≤ Jpeg.validateFile (fun j => tjpeg (0 + j)) 112 := by
  unfold Jpeg.validateFile
  rw [if_neg (by norm_num)]
  have hh : (Jpeg.getFileSignatures.any fun sig =>
      sig.length ≤ 112 && matchAt (fun j => tjpeg (0 + j)) sig 0) = true := by decide
  have hf : ((2 ≤ 112 : Bool) && (fun j => tjpeg (0 + j)) (112 - 2) == 0xFF &&
      (fun j => tjpeg (0 + j)) (112 - 1) == 0xD9) = true := by decide
  have hs : Jpeg.validateJpegStructure (fun j => tjpeg (0 + j)) 112 = true := by decide
  simp only [hh, hf, hs]
  exact calcScore_ge_of_true _ _

theorem tjpeg_carve_eq : Jpeg.carveFiles tjpeg 112 0 = [tjpegFile] := by
  have h := @jpeg_carve_singleton tjpeg 112 0 0 112
    (by norm_num) (by decide) (by decide) (by decide) (by decide)
    (by norm_num)
    (lt_of_lt_of_le (by norm_num) tjpeg_conf_ge)
  rw [h]
  rfl

theorem s1_ff {i : Nat} (h : s1data i = 0xFF) :
    i = 500000 ∨ i = 500002 ∨ i = 500110 := by
  by_cases h1 : i < 500000
  · unfold s1data at h
    rw [if_pos h1] at h
    omega
  by_cases h2 : i < 500112
  · have h3 : 500000 ≤ i := by omega
    interval_cases i <;> revert h <;> decide
  · unfold s1data at h
    rw [if_neg h1, if_neg (by omega)] at h
    omega

theorem s1_match_e0 {i : Nat} :
    matchAt s1data [0xFF, 0xD8, 0xFF, 0xE0] i = true ↔ i = 500000 := by
  constructor
  · intro h
    have h0 := matchAt_iff.mp h 0 (by norm_num)
    have h0 : s1data i = 0xFF := by simpa using h0
    rcases s1_ff h0 with rfl | rfl | rfl
    · rfl
    · have h1 := matchAt_iff.mp h 1 (by norm_num)
      exact absurd h1 (by decide)
    · have h1 := matchAt_iff.mp h 1 (by norm_num)
      exact absurd h1 (by decide)
  · rintro rfl
    decide

theorem s1_match_e1 {i : Nat} :
    matchAt s1data [0xFF, 0xD8, 0xFF, 0xE1] i = false := by
  rw [Bool.eq_false_iff]
  intro h
  have h0 := matchAt_iff.mp h 0 (by norm_num)
  have h0 : s1data i = 0xFF := by simpa using h0
  rcases s1_ff h0 with rfl | rfl | rfl
  · have h1 := matchAt_iff.mp h 3 (by norm_num)
    exact absurd h1 (by decide)
  · have h1 := matchAt_iff.mp h 1 (by norm_num)
    exact absurd h1 (by decide)
  · have h1 := matchAt_iff.mp h 1 (by norm_num)
    exact absurd h1 (by decide)

theorem s1_match_db {i : Nat} :
    matchAt s1data [0xFF, 0xD8, 0xFF, 0xDB] i = false := by
  rw [Bool.eq_false_iff]
  intro h
  have h0 := matchAt_iff.mp h 0 (by norm_num)
  have h0 : s1data i = 0xFF := by simpa using h0
  rcases s1_ff h0 with rfl | rfl | rfl
  · have h1 := matchAt_iff.mp h 3 (by norm_num)
    exact absurd h1 (by decide)
  · have h1 := matchAt_iff.mp h 1 (by norm_num)
    exact absurd h1 (by decide)
  · have h1 := matchAt_iff.mp h 1 (by norm_num)
    exact absurd h1 (by decide)

theorem s1_fp1 : findPattern s1data s1size [0xFF, 0xD8, 0xFF, 0xE0] = [500000] :=
  findPattern_eq_single (by simp) (by norm_num [s1size]) (fun j => s1_match_e0)

theorem s1_fp2 : findPattern s1data s1size [0xFF, 0xD8, 0xFF, 0xE1] = [] :=
  findPattern_eq_nil (fun j => s1_match_e1)

theorem s1_fp3 : findPattern s1data s1size [0xFF, 0xD8, 0xFF, 0xDB] = [] :=
  findPattern_eq_nil (fun j => s1_match_db)

theorem s1_end : Jpeg.findJpegEnd s1data s1size 500000 = 112 := by
  unfold Jpeg.findJpegEnd
  rw [if_neg (by norm_num [s1size])]
  have hfind : (List.range' (500000 + 10)
      (min (s1size - 1) (500000 + Jpeg.getMaxFileSize + 2) - (500000 + 10))).find?
      (fun i => s1data i == 0xFF && s1data (i + 1) == 0xD9) = some 500110 := by
    apply find?_range'_eq_some (by norm_num) ?_ ?_ (by decide)
    · norm_num [s1size, Jpeg.getMaxFileSize]
    · intro i hi1 hi2
      have hv : s1data i = i - 500010 := by
        unfold s1data s1pat
        rw [if_neg (by omega), if_pos (by omega), if_neg (by omega),
          if_pos (by omega)]
        omega
      have hne : s1data i ≠ 0xFF := by omega
      simp [hne]
  simp only [hfind]

theorem s1_conf_ge :
    (7 : ℚ)/10 ≤ Jpeg.validateFile (fun j => s1data (500000 + j)) 112 := by
  unfold Jpeg.validateFile
  rw [if_neg (by norm_num)]
  have hh : (Jpeg.getFileSignatures.any fun sig =>
      sig.length ≤ 112 && matchAt (fun j => s1data (500000 + j)) sig 0) = true := by decide
  have hf : ((2 ≤ 112 : Bool) && (fun j => s1data (500000 + j)) (112 - 2) == 0xFF &&
      (fun j => s1data (500000 + j)) (112 - 1) == 0xD9) = true := by decide
  have hs : Jpeg.validateJpegStructure (fun j => s1data (500000 + j)) 112 = true := by
    decide
  simp only [hh, hf, hs]
  exact calcScore_ge_of_true _ _

theorem s1_carve_eq : Jpeg.carveFiles s1data s1size 0 = [s1file] :=
  jpeg_carve_singleton (by norm_num [s1size]) s1_fp1 s1_fp2 s1_fp3 s1_end
    (by norm_num) (lt_of_lt_of_le (by norm_num) s1_conf_ge)

theorem zcand_eq :
    Zip.collectCandidates zdata 30 = [⟨0, 30, 6/10⟩] := by
  have hfp1 : findPattern zdata 30 [0x50, 0x4B, 0x03, 0x04] = [0] := by decide
  have hfp2 : findPattern zdata 30 [0x50, 0x4B, 0x05, 0x06] = [] := by decide
  have hfp3 : findPattern zdata 30 [0x50, 0x4B, 0x07, 0x08] = [] := by decide
  have hzs : Zip.calculate_zip_size (fun j => zdata (0 + j)) (30 - 0) = 30 := by decide
  have heocd : Zip.find_end_of_central_directory zdata 30 = 0 := by decide
  unfold Zip.collectCandidates
  simp only [Zip.getFileSignatures, List.flatMap_cons, List.flatMap_nil,
    hfp1, hfp2, hfp3, List.filterMap_cons, List.filterMap_nil,
    List.append_nil, hzs]
  norm_num [heocd, Zip.localHeaderSize]

theorem zcarve_eq :
    Zip.carveFiles zdata 30 0 = [Zip.toRecovered 0 ⟨0, 30, 6/10⟩] :=
  zip_carve_of_single (by norm_num) zcand_eq

/-- Claim C1 (code bug): the FAT32 parser writes confidence_score = 85.0
into every directory-entry record (fat32_parser.cpp line 401), so the
spec's invariant confidence_score in [0, 1] fails; at the unit tests'
"TEST    TXT" entry the stored score is 85, not at most 1.  The sibling
NTFS parser and all carvers stay on the [0, 1] scale, so the 85.0 (and
the 60.0 and 70.0 of the deleted passes) is a slip for 0.85/0.60/0.70. -/
theorem c1_fat32_confidence_out_of_unit_range :
    (Fat32.parse_dir_entry_to_file testEntry "" testBoot 0).confidence_score = 85 ∧
    ¬(Fat32.parse_dir_entry_to_file testEntry "" testBoot 0).confidence_score ≤ 1 := by
  have he : (Fat32.parse_dir_entry_to_file testEntry "" testBoot 0).confidence_score
      = 85 := by
    unfold Fat32.parse_dir_entry_to_file
    split <;> rfl
  exact ⟨he, by rw [he]; norm_num⟩

/-- Claim C2 counterexamples: three producers break the fragment-sum
invariant.  The FAT32 parser emits, for the deleted entry of scenario S5
(file_size 200, cluster 4), a single fragment of one cluster size
(512 bytes); the NTFS record walk on a valid in-use MFT record whose
resident data value reaches past the record's used size reports the
value length 100 as file_size while collecting no fragment; and the ext4
direct-block walk on a 4096-byte deleted inode with a single valid
direct block covers only 1024 bytes. -/
theorem c2_fragment_sum_mismatches :
    (((Fat32.parse_dir_entry_to_file delEntry "" testBoot 0).fragments.map
        Prod.snd).sum = 512 ∧
      (Fat32.parse_dir_entry_to_file delEntry "" testBoot 0).file_size = 200 ∧
      ((Fat32.parse_dir_entry_to_file delEntry "" testBoot 0).fragments.map
        Prod.snd).sum ≠
        (Fat32.parse_dir_entry_to_file delEntry "" testBoot 0).file_size) ∧
    (Ntfs.mft_record_emit mftRec ntfsBoot 0).map
      (fun r => ((r.fragments.map Prod.snd).sum, r.file_size)) = some (0, 100) ∧
    (Ext4.buildRecord (fun _ => 0) 6144 ext4SB 0 13 ext4Inode1).map
      (fun r => ((r.fragments.map Prod.snd).sum, r.file_size)) =
      some (1024, 4096) := by
  refine ⟨⟨?_, ?_, ?_⟩, ?_, ?_⟩ <;> decide

/-- Claim C2 as amended, producer by producer: the ZIP engine emits
exactly one fragment equal to (start_offset, file_size); the ext4 parser
emits fragments whose sizes sum to at most file_size, with a single
fragment equal to (start_offset, file_size) on the extent path; the
JPEG, PDF and PNG engines emit records of positive size with an empty
fragment list, so their fragment sums always fall short of file_size;
and the FAT32 and NTFS parsers can break the invariant, as the
counterexamples show. -/
theorem c2_fragment_invariants :
    (∀ (data : Nat → Nat) (size base : Nat) (f : RecoveredFile),
      f ∈ Zip.carveFiles data size base →
      f.fragments = [(f.start_offset, f.file_size)] ∧
      (f.fragments.map Prod.snd).sum = f.file_size) ∧
    (∀ (data : Nat → Nat) (size : Nat) (sb : Ext4.Ext4Superblock)
      (p n : Nat) (inode : Ext4.Ext4Inode) (r : RecoveredFile),
      Ext4.buildRecord data size sb p n inode = some r →
      (r.fragments.map Prod.snd).sum ≤ r.file_size ∧
      (inode.i_flags / 2 ^ 19 % 2 = 1 ∧ sb.s_feature_incompat / 2 ^ 6 % 2 = 1 →
        r.fragments = [(r.start_offset, r.file_size)])) ∧
    (∀ (data : Nat → Nat) (size base : Nat) (f : RecoveredFile),
      f ∈ Jpeg.carveFiles data size base → f.fragments = [] ∧ 0 < f.file_size) ∧
    (∀ (data : Nat → Nat) (size base : Nat) (f : RecoveredFile),
      f ∈ Pdf.carveFiles data size base → f.fragments = [] ∧ 0 < f.file_size) ∧
    (∀ (data : Nat → Nat) (size base : Nat) (f : RecoveredFile),
      f ∈ Png.carveFiles data size base → f.fragments = [] ∧ 0 < f.file_size) := by
  refine ⟨?_, ?_, ?_, ?_, ?_⟩
  · intro data size base f h
    obtain ⟨c, _, rfl⟩ := zip_carve_shape h
    exact ⟨rfl, by simp [Zip.toRecovered]⟩
  · intro data size sb p n inode r h
    exact ext4_fragment_props h
  · intro data size base f h
    obtain ⟨_, _, _, h4, h5⟩ := jpeg_carve_props h
    exact ⟨h5, by omega⟩
  · intro data size base f h
    exact pdf_carve_fragments h
  · intro data size base f h
    obtain ⟨_, _, _, _, h5, h6⟩ := png_carve_props h
    exact ⟨h5, h6⟩

/-- Witness for C2: the ZIP fragment invariant evaluated on the minimal
30-byte ZIP buffer. -/
theorem c2_fragment_invariants_witness :
    (Zip.toRecovered 0 ⟨0, 30, 6/10⟩).fragments =
      [((Zip.toRecovered 0 ⟨0, 30, 6/10⟩).start_offset,
        (Zip.toRecovered 0 ⟨0, 30, 6/10⟩).file_size)] ∧
    ((Zip.toRecovered 0 ⟨0, 30, 6/10⟩).fragments.map Prod.snd).sum =
      (Zip.toRecovered 0 ⟨0, 30, 6/10⟩).file_size :=
  c2_fragment_invariants.1 zdata 30 0 _
    (by rw [zcarve_eq]; exact List.mem_singleton.mpr rfl)

/-- Claim C4 (scenario S1): on the 1 MiB buffer of 0xAA with the
112-byte JPEG planted at offset 500000, the JPEG engine run with
base_offset 0 yields exactly one record, with start_offset 500000,
file_size 112, file_type "JPEG" and confidence at least 0.7. -/
theorem c4_s1_single_jpeg :
    (Jpeg.carveFiles s1data s1size 0).length = 1 ∧
    (Jpeg.carveFiles s1data s1size 0).headI.start_offset = 500000 ∧
    (Jpeg.carveFiles s1data s1size 0).headI.file_size = 112 ∧
    (Jpeg.carveFiles s1data s1size 0).headI.file_type = "JPEG" ∧
    (7 : ℚ)/10 ≤ (Jpeg.carveFiles s1data s1size 0).headI.confidence_score := by
  rw [s1_carve_eq]
  refine ⟨rfl, by norm_num [s1file], rfl, rfl, ?_⟩
  simpa [s1file] using s1_conf_ge

/-- Claim C5 counterexample: with a = [1], b = [2, 3], p = [1, 2]
(pattern no longer than b) the occurrence of p straddling the boundary
makes find_all(a ++ b, p) = [0] while find_all(a, p) and the shifted
find_all(b, p) are both empty, so the claimed equality with their union
fails. -/
theorem c5_append_counterexample :
    ([1, 2] : List Nat).length ≤ ([2, 3] : List Nat).length ∧
    findAllList ([1] ++ [2, 3]) [1, 2] = [0] ∧
    findAllList [1] [1, 2] ++
      (findAllList [2, 3] [1, 2]).map ((1 : Nat) + ·) = [] := by
  refine ⟨?_, ?_, ?_⟩ <;> decide

/-- Claim C5 as amended: when |p| <= |b| and no occurrence of p in
a ++ b straddles the boundary (every match starting inside a ends inside
a), find_all(a ++ b, p) equals find_all(a, p) followed by the offsets of
find_all(b, p) shifted by |a|. -/
theorem c5_find_all_append :
    ∀ (a b p : List Nat), p.length ≤ b.length →
      (∀ i < a.length,
        matchAt (bufOf (a ++ b)) p i = true → i + p.length ≤ a.length) →
      findAllList (a ++ b) p =
        findAllList a p ++ (findAllList b p).map (a.length + ·) :=
  fun a b p hpb hstrad => findAllList_append a b p hpb hstrad

/-- Witness for C5: the amended equation evaluated at a = [1, 2],
b = [3, 1, 2], p = [2]. -/
theorem c5_find_all_append_witness :
    findAllList ([1, 2] ++ [3, 1, 2]) [2] =
      findAllList [1, 2] [2] ++
        (findAllList [3, 1, 2] [2]).map (([1, 2] : List Nat).length + ·) :=
  c5_find_all_append [1, 2] [3, 1, 2] [2] (by decide) (by decide)

/-- Claim C6: after the deduplication pass of the recovery engine no two
records share the same (start_offset, file_size) pair; the pass sorts by
that pair and keeps the first of each run of equal-key entries. -/
theorem c6_dedup_no_duplicate_keys :
    ∀ l : List RecoveredFile,
      List.Pairwise
        (fun x y => ¬(x.start_offset = y.start_offset ∧ x.file_size = y.file_size))
        (Engine.deduplicateFiles l) := by
  intro l
  unfold Engine.deduplicateFiles
  have hsorted := sorted_sortRecs l
  rcases hs : Engine.sortRecs l with _ | ⟨a, t⟩
  · simp [Engine.uniqueRecs]
  · rw [hs] at hsorted
    exact uniqueFrom_pairwise hsorted

/-- Witness for C6: deduplication of a concrete two-element list with
equal keys. -/
theorem c6_dedup_witness :
    List.Pairwise
      (fun x y => ¬(x.start_offset = y.start_offset ∧ x.file_size = y.file_size))
      (Engine.deduplicateFiles [tjpegFile, tjpegFile]) :=
  c6_dedup_no_duplicate_keys [tjpegFile, tjpegFile]

/-- Claim C7 counterexample: with an empty device path the engine
returns DEVICE_NOT_FOUND (the scanner's stat of "" fails, so initialize
fails), not the FAILED status the claim names. -/
theorem c7_empty_device_not_failed :
    Engine.startRecovery cfgEmptyDev env0 false =
      RecoveryStatus.DEVICE_NOT_FOUND ∧
    RecoveryStatus.DEVICE_NOT_FOUND ≠ RecoveryStatus.FAILED := by
  refine ⟨?_, ?_⟩ <;> decide

/-- Claim C7 as amended: an empty device path makes startRecovery return
DEVICE_NOT_FOUND (stat of the empty path fails), and with an openable
device an empty output directory makes it return INSUFFICIENT_SPACE
(create_directories of the empty path fails); neither early exit returns
FAILED. -/
theorem c7_empty_config_statuses :
    ∀ (env : Engine.SysEnv) (cfg : ScanConfig),
      (cfg.device_path = "" → env.statExists "" = false →
        Engine.startRecovery cfg env false = RecoveryStatus.DEVICE_NOT_FOUND) ∧
      (cfg.output_directory = "" →
        Engine.scannerInit env cfg.device_path = true →
        env.createDirsOk "" = false →
        Engine.startRecovery cfg env false = RecoveryStatus.INSUFFICIENT_SPACE) := by
  intro env cfg
  constructor
  · intro h1 h2
    have hs : Engine.scannerInit env cfg.device_path = false := by
      unfold Engine.scannerInit Engine.verifyDeviceAccess
      rw [h1, h2]
      rfl
    simp [Engine.startRecovery, hs]
  · intro h1 h2 h3
    simp [Engine.startRecovery, h2, h1, h3]

/-- Witness for C7: both amended statuses evaluated on the concrete
oracle. -/
theorem c7_empty_config_statuses_witness :
    Engine.startRecovery cfgEmptyDev env0 false =
      RecoveryStatus.DEVICE_NOT_FOUND ∧
    Engine.startRecovery cfgEmptyOut env0 false =
      RecoveryStatus.INSUFFICIENT_SPACE :=
  ⟨(c7_empty_config_statuses env0 cfgEmptyDev).1 rfl (by decide),
   (c7_empty_config_statuses env0 cfgEmptyOut).2 rfl (by decide) (by decide)⟩

/-- Claim C8 counterexample: the 60-byte corrupted JPEG of the unit
tests (header then 50 counter bytes, no footer) sits in a haystack far
below 1 KiB and its boundary estimate is 20 bytes, below the 100-byte
minimum, yet the engine emits nothing: the sub-1-KiB exception the claim
describes does not exist in the JPEG engine. -/
theorem c8_small_jpeg_not_emitted :
    Jpeg.carveFiles cjpeg 60 0 = [] ∧
    Jpeg.findJpegEnd cjpeg 60 0 = 20 ∧
    (0 : Nat) < 20 ∧ (20 : Nat) < 100 ∧ (60 : Nat) < 1024 := by
  refine ⟨?_, ?_, ?_, ?_, ?_⟩ <;> decide

/-- Claim C8 as amended: the JPEG engine skips every emission whose
file_size is below 100 bytes, unconditionally: there is no exception for
haystacks below 1 KiB. -/
theorem c8_jpeg_min_size :
    ∀ (data : Nat → Nat) (size base : Nat) (f : RecoveredFile),
      f ∈ Jpeg.carveFiles data size base → 100 ≤ f.file_size :=
  fun _ _ _ _ h => (jpeg_carve_props h).2.2.2.1

/-- Witness for C8: the minimum size evaluated on the 112-byte test
JPEG. -/
theorem c8_jpeg_min_size_witness : 100 ≤ tjpegFile.file_size :=
  c8_jpeg_min_size tjpeg 112 0 tjpegFile
    (by rw [tjpeg_carve_eq]; exact List.mem_singleton.mpr rfl)

/-- Claim C10: every file emitted by the ZIP engine carries a confidence
score of at least 0.5 (base confidence 0.5 in the scoring path, and 0.6
or 0.9 in the sub-1000-byte test path). -/
theorem c10_zip_confidence_ge_half :
    ∀ (data : Nat → Nat) (size base : Nat) (f : RecoveredFile),
      f ∈ Zip.carveFiles data size base → (1 : ℚ)/2 ≤ f.confidence_score := by
  intro data size base f h
  obtain ⟨c, hc, rfl⟩ := zip_carve_shape h
  exact (collectCandidates_props hc).2.2

/-- Witness for C10: the confidence bound evaluated on the minimal
30-byte ZIP buffer. -/
theorem c10_zip_confidence_witness :
    (1 : ℚ)/2 ≤ (Zip.toRecovered 0 ⟨0, 30, 6/10⟩).confidence_score :=
  c10_zip_confidence_ge_half zdata 30 0 _
    (by rw [zcarve_eq]; exact List.mem_singleton.mpr rfl)

theorem string_mk_append (l m : List Char) :
    String.mk l ++ String.mk m = String.mk (l ++ m) := rfl

theorem extract_short_name_eq_spec (e : Fat32.Fat32DirEntry) :
    Fat32.extract_short_name e = shortNameSpec e := by
  unfold Fat32.extract_short_name shortNameSpec
  simp only [Fat32.preserve_case, if_true]
  set base := ((List.range 8).map fun i => e.filename.getD i 0).filter
    (fun c => c ≠ 0x20) with hbase
  set ext := ((List.range 3).map fun i => e.filename.getD (8 + i) 0).filter
    (fun c => c ≠ 0x20) with hext
  by_cases hx : ext = []
  · rw [hx]
    simp
  · have hxs : String.mk (ext.map fun c => Char.ofNat c) ≠ "" := by
      intro hc
      have := congrArg String.data hc
      simp at this
      exact hx this
    rw [if_neg hxs, if_neg hx]
    have hdot : ("." : String) = String.mk [Char.ofNat 0x2E] := rfl
    rw [hdot, string_mk_append, string_mk_append]
    congr 1
    simp

/-- Claim C9 counterexample: for the test entry "TEST    TXT" the
produced file name is "TEST.TXT", not the lowercase "test.txt" the claim
requires (extract_short_name keeps the stored case). -/
theorem c9_short_name_not_lowercased :
    (Fat32.parse_dir_entry_to_file testEntry "" testBoot 0).filename = "TEST.TXT" ∧
    ("TEST.TXT" : String) ≠ "test.txt" := by
  refine ⟨?_, ?_⟩ <;> decide

/-- Claim C9 as amended: for every regular directory entry with no
accumulated long name, the produced file name is the 8+3 short name with
a dot separator between base and extension, with the stored case
preserved (not lowercased). -/
theorem c9_short_name_spec :
    ∀ (e : Fat32.Fat32DirEntry) (boot : Fat32.Fat32BootSector) (poff : Nat),
      (Fat32.parse_dir_entry_to_file e "" boot poff).filename = shortNameSpec e := by
  intro e boot poff
  unfold Fat32.parse_dir_entry_to_file
  split
  · by_cases hc : Fat32.is_valid_cluster
        (e.first_cluster_high * 65536 + e.first_cluster_low) = true ∧
        Fat32.get_fat_offset boot < 2 ^ 64 - 1
    · simp only [if_pos hc]
      exact extract_short_name_eq_spec e
    · simp only [if_neg hc]
      exact extract_short_name_eq_spec e
  · rename_i hfalse
    exact absurd rfl hfalse

/-- Witness for C9: the amended naming rule evaluated on the deleted
test entry. -/
theorem c9_short_name_spec_witness :
    (Fat32.parse_dir_entry_to_file delEntry "" testBoot 0).filename =
      shortNameSpec delEntry :=
  c9_short_name_spec delEntry testBoot 0

end FileRec
